import Mathlib

/-!
Verification of the 5G antenna-placement optimization engine.

Shallow embedding of the core algorithms of the repository:
the data model (buildings, antenna types, antennas), the spatial grid
index and greedy constructor of advanced_solution.py, the local-search
operators and simulated-annealing driver of
suburbia_simulated_annealing.py.

Python integers are modelled as Int (coordinates) and Nat (populations,
costs, ids); Python float scores are modelled as exact rationals; the
pseudo-random source of the annealing driver is modelled as explicit
oracle parameters (the choice indices, shuffled orders and uniform draws
that random.choice / random.shuffle / random.random would produce).
-/

/-- A building record of a dataset: id, coordinates and the three
population readings. -/
structure Building where
  id : Nat
  x : Int
  y : Int
  populationPeakHours : Nat
  populationOffPeakHours : Nat
  populationNight : Nat
deriving DecidableEq

instance : Inhabited Building := ⟨⟨0, 0, 0, 0, 0, 0⟩⟩

/-- Demand of a building: maximum of its three population readings
(get_max_pop in both source files). -/
def get_max_pop (b : Building) : Nat :=
  max b.populationPeakHours (max b.populationOffPeakHours b.populationNight)

/-- Squared Euclidean distance (dist_sq in both source files). -/
def dist_sq (x1 y1 x2 y2 : Int) : Int :=
  (x1 - x2) ^ 2 + (y1 - y2) ^ 2

/-- The fixed, closed enumeration of antenna types (keys of the
ANTENNA_TYPES table). -/
inductive AntennaType where
  | Nano
  | Spot
  | Density
  | MaxRange
deriving DecidableEq, Fintype

/-- Coverage radius of each type (the 'range' column of ANTENNA_TYPES). -/
def AntennaType.range : AntennaType → Int
  | .Nano => 50
  | .Spot => 100
  | .Density => 150
  | .MaxRange => 400

/-- Capacity ceiling of each type (the 'capacity' column of ANTENNA_TYPES). -/
def AntennaType.capacity : AntennaType → Nat
  | .Nano => 200
  | .Spot => 800
  | .Density => 5000
  | .MaxRange => 3500

/-- Activation cost of each type (the 'cost_on' column of ANTENNA_TYPES). -/
def AntennaType.cost_on : AntennaType → Nat
  | .Nano => 5000
  | .Spot => 15000
  | .Density => 30000
  | .MaxRange => 40000

/-- TYPE_ORDER of suburbia_simulated_annealing.py (ascending cost). -/
def TYPE_ORDER : List AntennaType := [.Nano, .Spot, .Density, .MaxRange]

/-- A placed antenna: type, position and list of assigned building ids. -/
structure Antenna where
  type : AntennaType
  x : Int
  y : Int
  buildings : List Nat
deriving DecidableEq

instance : Inhabited Antenna := ⟨⟨.Nano, 0, 0, []⟩⟩

/-- The building dictionary bmap = {b['id']: b for b in buildings}: later
entries override earlier ones, exactly as a Python dict comprehension. -/
def mkBmap (buildings : List Building) : Nat → Building := fun bid =>
  (buildings.foldl (fun acc b => if b.id = bid then some b else acc) none).getD default

/-- Total activation cost of a list of antennas (calculate_cost). -/
def calculate_cost (antennas : List Antenna) : Nat :=
  (antennas.map (fun a => a.type.cost_on)).sum

/-- Total demand of a list of building ids under a building map. -/
def totalPop (bmap : Nat → Building) (bids : List Nat) : Nat :=
  (bids.map (fun bid => get_max_pop (bmap bid))).sum

/-! ## optimize_types of advanced_solution.py -/

/-- Scan order of the type loop in optimize_types. -/
def optimizeScan : List AntennaType := [.Nano, .Spot, .MaxRange, .Density]

/-- Body of optimize_types for one antenna: keep position and buildings,
scan the four types and retain the cheapest one whose capacity and radius
both accommodate the assignment, if cheaper than the current type. -/
def optimize_types_one (bmap : Nat → Building) (ant : Antenna) : Antenna :=
  let blds := ant.buildings.map bmap
  let total_pop := (blds.map get_max_pop).sum
  let best := optimizeScan.foldl
    (fun (best : AntennaType × Nat) atype =>
      if total_pop ≤ atype.capacity ∧
          (∀ b ∈ blds, dist_sq ant.x ant.y b.x b.y ≤ atype.range ^ 2) ∧
          atype.cost_on < best.2
      then (atype, atype.cost_on) else best)
    (ant.type, ant.type.cost_on)
  { ant with type := best.1 }

/-- optimize_types of advanced_solution.py. -/
def optimize_types (buildings : List Building) (solution : List Antenna) : List Antenna :=
  solution.map (optimize_types_one (mkBmap buildings))

/-- A type is valid for a fixed position and assignment when its capacity
accommodates the total demand and its radius covers every assigned
building. -/
def validType (bmap : Nat → Building) (x y : Int) (bids : List Nat) (t : AntennaType) : Prop :=
  totalPop bmap bids ≤ t.capacity ∧
  ∀ bid ∈ bids, dist_sq x y (bmap bid).x (bmap bid).y ≤ t.range ^ 2

instance (bmap : Nat → Building) (x y : Int) (bids : List Nat) (t : AntennaType) :
    Decidable (validType bmap x y bids t) := by
  unfold validType; infer_instance

/-- The four types in ascending order of activation cost. -/
def costAscOrder : List AntennaType := [.Nano, .Spot, .Density, .MaxRange]

/-- The type the specification prescribes for the type-downgrade operator:
the minimum-cost type among all four whose capacity and radius satisfy the
existing assignment, keeping the original type when no valid type is
cheaper. -/
def specDowngradeType (bmap : Nat → Building) (ant : Antenna) : AntennaType :=
  match costAscOrder.find? (fun t => decide (validType bmap ant.x ant.y ant.buildings t)) with
  | some t => if t.cost_on < ant.type.cost_on then t else ant.type
  | none => ant.type

theorem validType_iff_cond (bmap : Nat → Building) (ant : Antenna) (t : AntennaType) :
    ((ant.buildings.map bmap).map get_max_pop).sum ≤ t.capacity ∧
      (∀ b ∈ ant.buildings.map bmap, dist_sq ant.x ant.y b.x b.y ≤ t.range ^ 2) ↔
    validType bmap ant.x ant.y ant.buildings t := by
  unfold validType totalPop
  rw [List.map_map]
  constructor
  · rintro ⟨h1, h2⟩
    exact ⟨h1, fun bid hbid => h2 (bmap bid) (List.mem_map_of_mem _ hbid)⟩
  · rintro ⟨h1, h2⟩
    refine ⟨h1, fun b hb => ?_⟩
    obtain ⟨bid, hbid, rfl⟩ := List.mem_map.mp hb
    exact h2 bid hbid

theorem optimize_types_one_eq (bmap : Nat → Building) (ant : Antenna) :
    optimize_types_one bmap ant = { ant with type := specDowngradeType bmap ant } := by
  have key : ∀ t c, (((ant.buildings.map bmap).map get_max_pop).sum ≤ t.capacity ∧
      (∀ b ∈ ant.buildings.map bmap, dist_sq ant.x ant.y b.x b.y ≤ t.range ^ 2) ∧
      AntennaType.cost_on t < c) ↔
      (validType bmap ant.x ant.y ant.buildings t ∧ AntennaType.cost_on t < c) := by
    intro t c
    rw [← validType_iff_cond bmap ant t, and_assoc]
  unfold optimize_types_one specDowngradeType costAscOrder optimizeScan
  simp only [List.foldl, List.find?, key]
  by_cases hN : validType bmap ant.x ant.y ant.buildings .Nano <;>
    by_cases hS : validType bmap ant.x ant.y ant.buildings .Spot <;>
      by_cases hM : validType bmap ant.x ant.y ant.buildings .MaxRange <;>
        by_cases hD : validType bmap ant.x ant.y ant.buildings .Density <;>
          cases ant.type <;>
            simp [hN, hS, hM, hD, AntennaType.cost_on]

/-- Cost of the downgraded type never exceeds the original cost. -/
theorem specDowngradeType_cost_le (bmap : Nat → Building) (ant : Antenna) :
    (specDowngradeType bmap ant).cost_on ≤ ant.type.cost_on := by
  unfold specDowngradeType
  cases h : costAscOrder.find? (fun t => decide (validType bmap ant.x ant.y ant.buildings t)) with
  | none => exact le_refl _
  | some t =>
    by_cases hc : t.cost_on < ant.type.cost_on
    · simp only [if_pos hc]; exact le_of_lt hc
    · simp only [if_neg hc]; exact le_refl _

/-- C4: the type-downgrade operator optimize_types returns the same
antennas in the same order, each with identical position and
assigned-building list, retyped to the minimum-cost type among all four
whose capacity and radius satisfy the existing assignment (keeping the
original type if none is cheaper), and the total solution cost never
increases. -/
theorem optimize_types_downgrade_spec (buildings : List Building) (solution : List Antenna)
    (hin : ∀ a ∈ solution, ∀ bid ∈ a.buildings, ∃ b ∈ buildings, b.id = bid) :
    optimize_types buildings solution
      = solution.map (fun a => { a with type := specDowngradeType (mkBmap buildings) a }) ∧
    calculate_cost (optimize_types buildings solution) ≤ calculate_cost solution := by
  clear hin
  constructor
  · unfold optimize_types
    exact List.map_congr_left (fun a _ => optimize_types_one_eq (mkBmap buildings) a)
  · unfold optimize_types calculate_cost
    rw [List.map_map]
    apply List.sum_le_sum
    intro a _
    simp only [Function.comp_apply, optimize_types_one_eq]
    exact specDowngradeType_cost_le (mkBmap buildings) a

/-- Concrete one-building dataset used by the C4 witness. -/
def datasetW4 : List Building := [⟨7, 0, 0, 10, 5, 3⟩]

/-- Concrete one-antenna solution used by the C4 witness. -/
def solutionW4 : List Antenna := [⟨.Density, 0, 0, [7]⟩]

/-- Witness for C4 on a concrete one-building, one-antenna instance. -/
theorem optimize_types_downgrade_spec_witness :
    optimize_types datasetW4 solutionW4
      = solutionW4.map (fun a => { a with type := specDowngradeType (mkBmap datasetW4) a }) ∧
    calculate_cost (optimize_types datasetW4 solutionW4) ≤ calculate_cost solutionW4 :=
  optimize_types_downgrade_spec datasetW4 solutionW4 (by decide)

/-! ## find_best_antenna of advanced_solution.py -/

/-- Ordering of (id, demand) pairs by ascending demand. -/
def popLE (p q : Nat × Nat) : Prop := p.2 ≤ q.2

instance : DecidableRel popLE := fun p q => inferInstanceAs (Decidable (p.2 ≤ q.2))

instance : IsTotal (Nat × Nat) popLE := ⟨fun a b => Nat.le_total a.2 b.2⟩

instance : IsTrans (Nat × Nat) popLE := ⟨fun _ _ _ => Nat.le_trans⟩

/-- Stable ascending sort by demand, modelling in_range.sort keyed on the
population component (Python's sort is stable; so is insertion sort). -/
def sortByPop (l : List (Nat × Nat)) : List (Nat × Nat) := List.insertionSort popLE l

/-- The (id, demand) pairs of the uncovered buildings within the given
radius of (x, y), in uncovered order (the in_range list). -/
def buildInRange (bmap : Nat → Building) (x y rng : Int) (uncovered : List Nat) :
    List (Nat × Nat) :=
  uncovered.filterMap (fun bid =>
    if dist_sq x y (bmap bid).x (bmap bid).y ≤ rng ^ 2
    then some (bid, get_max_pop (bmap bid)) else none)

/-- Greedy accumulation loop of find_best_antenna: take each pair in
order whenever its demand still fits into the capacity. -/
def greedyPackGo (cap : Nat) : List Nat × Nat → List (Nat × Nat) → List Nat × Nat
  | acc, [] => acc
  | acc, p :: rest =>
    if acc.2 + p.2 ≤ cap then greedyPackGo cap (acc.1 ++ [p.1], acc.2 + p.2) rest
    else greedyPackGo cap acc rest

/-- Greedy accumulation into a capacity, starting from the empty selection. -/
def greedyPack (cap : Nat) (l : List (Nat × Nat)) : List Nat × Nat :=
  greedyPackGo cap ([], 0) l

/-- Per-type body of find_best_antenna: filter in-range uncovered
buildings, sort ascending by demand, pack greedily; no candidate when
nothing is in range or nothing fits. -/
def candidate_for_type (bmap : Nat → Building) (x y : Int) (uncovered : List Nat)
    (atype : AntennaType) : Option (List Nat × Nat) :=
  let in_range := buildInRange bmap x y atype.range uncovered
  if in_range = [] then none
  else
    let packed := greedyPack atype.capacity (sortByPop in_range)
    if packed.1 = [] then none else some packed

/-- Scan order of the type loop in find_best_antenna. -/
def fbaOrder : List AntennaType := [.Density, .MaxRange, .Spot, .Nano]

/-- The floating-point score of a candidate, as an exact rational. -/
def scoreOf (pc : Bool) (atype : AntennaType) (selected : List Nat) (total_pop : Nat) : ℚ :=
  if pc then (total_pop : ℚ) / (atype.cost_on : ℚ) * 1000
  else (selected.length : ℚ) * 10000 / (atype.cost_on : ℚ) + (total_pop : ℚ) / (atype.cost_on : ℚ)

/-- find_best_antenna of advanced_solution.py: best (type, selection,
score) over the four types, a later candidate replacing an earlier one
only on strictly greater score (best_score starts at -1). -/
def find_best_antenna (bmap : Nat → Building) (x y : Int) (uncovered : List Nat)
    (prefer_capacity : Bool) : Option (AntennaType × List Nat × ℚ) :=
  (fbaOrder.foldl
    (fun (acc : Option (AntennaType × List Nat × ℚ) × ℚ) atype =>
      match candidate_for_type bmap x y uncovered atype with
      | none => acc
      | some packed =>
        let score := scoreOf prefer_capacity atype packed.1 packed.2
        if acc.2 < score then (some (atype, packed.1, score), score) else acc)
    (none, -1)).1

theorem buildInRange_map_fst (bmap : Nat → Building) (x y rng : Int) (uncovered : List Nat) :
    (buildInRange bmap x y rng uncovered).map Prod.fst
      = uncovered.filter
          (fun bid => decide (dist_sq x y (bmap bid).x (bmap bid).y ≤ rng ^ 2)) := by
  induction uncovered with
  | nil => rfl
  | cons bid rest ih =>
    by_cases h : dist_sq x y (bmap bid).x (bmap bid).y ≤ rng ^ 2 <;>
      simp [buildInRange, List.filterMap_cons, h] at ih ⊢ <;> exact ih

theorem mem_buildInRange (bmap : Nat → Building) (x y rng : Int) (uncovered : List Nat)
    (p : Nat × Nat) (hp : p ∈ buildInRange bmap x y rng uncovered) :
    p.1 ∈ uncovered ∧ dist_sq x y (bmap p.1).x (bmap p.1).y ≤ rng ^ 2 ∧
      p.2 = get_max_pop (bmap p.1) := by
  obtain ⟨bid, hbid, heq⟩ := List.mem_filterMap.mp hp
  by_cases h : dist_sq x y (bmap bid).x (bmap bid).y ≤ rng ^ 2
  · rw [if_pos h] at heq
    cases hsome : heq
    exact ⟨hbid, h, rfl⟩
  · rw [if_neg h] at heq
    cases heq

theorem greedyPackGo_le (cap : Nat) (l : List (Nat × Nat)) :
    ∀ acc : List Nat × Nat, acc.2 ≤ cap → (greedyPackGo cap acc l).2 ≤ cap := by
  induction l with
  | nil => intro acc h; exact h
  | cons p rest ih =>
    intro acc h
    by_cases hfit : acc.2 + p.2 ≤ cap
    · rw [greedyPackGo, if_pos hfit]; exact ih _ hfit
    · rw [greedyPackGo, if_neg hfit]; exact ih _ h

theorem greedyPackGo_total (bmap : Nat → Building) (cap : Nat) (l : List (Nat × Nat))
    (hl : ∀ p ∈ l, p.2 = get_max_pop (bmap p.1)) :
    ∀ acc : List Nat × Nat, acc.2 = totalPop bmap acc.1 →
      (greedyPackGo cap acc l).2 = totalPop bmap (greedyPackGo cap acc l).1 := by
  induction l with
  | nil => intro acc h; exact h
  | cons p rest ih =>
    intro acc h
    have hrest : ∀ q ∈ rest, q.2 = get_max_pop (bmap q.1) :=
      fun q hq => hl q (List.mem_cons_of_mem _ hq)
    by_cases hfit : acc.2 + p.2 ≤ cap
    · rw [greedyPackGo, if_pos hfit]
      apply ih hrest
      simp only [totalPop, List.map_append, List.sum_append, List.map_cons, List.map_nil,
        List.sum_cons, List.sum_nil]
      rw [← hl p (List.mem_cons_self _ _), h]
      simp [totalPop]
    · rw [greedyPackGo, if_neg hfit]
      exact ih hrest acc h

theorem greedyPackGo_mem (cap : Nat) (l : List (Nat × Nat)) :
    ∀ (acc : List Nat × Nat) (bid : Nat), bid ∈ (greedyPackGo cap acc l).1 →
      bid ∈ acc.1 ∨ ∃ p ∈ l, p.1 = bid := by
  induction l with
  | nil => intro acc bid h; exact Or.inl h
  | cons p rest ih =>
    intro acc bid h
    by_cases hfit : acc.2 + p.2 ≤ cap
    · rw [greedyPackGo, if_pos hfit] at h
      rcases ih _ bid h with hacc | ⟨q, hq, hqb⟩
      · rcases List.mem_append.mp hacc with h1 | h1
        · exact Or.inl h1
        · exact Or.inr ⟨p, List.mem_cons_self _ _, (List.mem_singleton.mp h1).symm⟩
      · exact Or.inr ⟨q, List.mem_cons_of_mem _ hq, hqb⟩
    · rw [greedyPackGo, if_neg hfit] at h
      rcases ih _ bid h with hacc | ⟨q, hq, hqb⟩
      · exact Or.inl hacc
      · exact Or.inr ⟨q, List.mem_cons_of_mem _ hq, hqb⟩

theorem candidate_for_type_some (bmap : Nat → Building) (x y : Int) (uncovered : List Nat)
    (atype : AntennaType) (sel : List Nat) (tp : Nat)
    (h : candidate_for_type bmap x y uncovered atype = some (sel, tp)) :
    sel = (greedyPack atype.capacity (sortByPop (buildInRange bmap x y atype.range uncovered))).1 ∧
    totalPop bmap sel ≤ atype.capacity ∧
    ∀ bid ∈ sel, bid ∈ uncovered ∧
      dist_sq x y (bmap bid).x (bmap bid).y ≤ atype.range ^ 2 := by
  unfold candidate_for_type at h
  set ir := buildInRange bmap x y atype.range uncovered with hir
  by_cases hnil : ir = []
  · rw [if_pos hnil] at h; cases h
  · rw [if_neg hnil] at h
    by_cases hsel : (greedyPack atype.capacity (sortByPop ir)).1 = []
    · rw [if_pos hsel] at h; cases h
    · rw [if_neg hsel] at h
      have hpair : greedyPack atype.capacity (sortByPop ir) = (sel, tp) :=
        Option.some.inj h
      have hsorted_mem : ∀ p ∈ sortByPop ir, p.2 = get_max_pop (bmap p.1) := by
        intro p hp
        have : p ∈ ir := (List.perm_insertionSort popLE ir).mem_iff.mp hp
        exact (mem_buildInRange bmap x y atype.range uncovered p this).2.2
      have hsel_eq : sel = (greedyPack atype.capacity (sortByPop ir)).1 :=
        (congrArg Prod.fst hpair).symm
      have htp_eq : tp = (greedyPack atype.capacity (sortByPop ir)).2 :=
        (congrArg Prod.snd hpair).symm
      refine ⟨hsel_eq, ?_, ?_⟩
      · have h1 : (greedyPack atype.capacity (sortByPop ir)).2 ≤ atype.capacity :=
          greedyPackGo_le _ _ _ (Nat.zero_le _)
        have h2 : (greedyPack atype.capacity (sortByPop ir)).2
            = totalPop bmap (greedyPack atype.capacity (sortByPop ir)).1 := by
          apply greedyPackGo_total bmap _ _ hsorted_mem
          simp [totalPop]
        rw [hsel_eq, ← h2]
        exact h1
      · intro bid hbid
        rw [hsel_eq] at hbid
        rcases greedyPackGo_mem _ _ _ bid hbid with hacc | ⟨p, hp, hpb⟩
        · cases hacc
        · have hpir : p ∈ ir := (List.perm_insertionSort popLE ir).mem_iff.mp hp
          have := mem_buildInRange bmap x y atype.range uncovered p hpir
          rw [hpb] at this
          exact ⟨this.1, this.2.1⟩

theorem find_best_antenna_eq_some (bmap : Nat → Building) (x y : Int) (uncovered : List Nat)
    (pc : Bool) (t : AntennaType) (sel : List Nat) (sc : ℚ)
    (h : find_best_antenna bmap x y uncovered pc = some (t, sel, sc)) :
    ∃ tp, candidate_for_type bmap x y uncovered t = some (sel, tp) ∧
      sc = scoreOf pc t sel tp := by
  have main : ∀ (ts : List AntennaType) (acc : Option (AntennaType × List Nat × ℚ) × ℚ),
      (∀ t0 sel0 sc0, acc.1 = some (t0, sel0, sc0) →
        ∃ tp, candidate_for_type bmap x y uncovered t0 = some (sel0, tp) ∧
          sc0 = scoreOf pc t0 sel0 tp) →
      ∀ t0 sel0 sc0,
        (ts.foldl (fun acc atype =>
          match candidate_for_type bmap x y uncovered atype with
          | none => acc
          | some packed =>
            let score := scoreOf pc atype packed.1 packed.2
            if acc.2 < score then (some (atype, packed.1, score), score) else acc) acc).1
          = some (t0, sel0, sc0) →
        ∃ tp, candidate_for_type bmap x y uncovered t0 = some (sel0, tp) ∧
          sc0 = scoreOf pc t0 sel0 tp := by
    intro ts
    induction ts with
    | nil => intro acc hacc; exact hacc
    | cons atype rest ih =>
      intro acc hacc
      apply ih
      cases hc : candidate_for_type bmap x y uncovered atype with
      | none => simpa [hc] using hacc
      | some packed =>
        by_cases hlt : acc.2 < scoreOf pc atype packed.1 packed.2
        · simp only [List.foldl, hc, if_pos hlt]
          intro t0 sel0 sc0 heq
          cases heq
          exact ⟨packed.2, hc, rfl⟩
        · simpa [hc, if_neg hlt] using hacc
  exact main fbaOrder (none, -1) (by intro t0 sel0 sc0 h0; cases h0) t sel sc h

/-- C8: whenever find_best_antenna returns a candidate for some type, that
candidate is exactly the greedy accumulation of the uncovered in-radius
buildings sorted ascending by demand into the type's capacity, the
considered pool is exactly the uncovered buildings within the type's
radius, the sorted sequence is ascending and a permutation of the pool,
the selected total demand never exceeds the capacity, and every selected
building is uncovered and within the type's radius of the position. -/
theorem find_best_antenna_packing (bmap : Nat → Building) (x y : Int) (uncovered : List Nat)
    (pc : Bool) (t : AntennaType) (sel : List Nat) (sc : ℚ)
    (h : find_best_antenna bmap x y uncovered pc = some (t, sel, sc)) :
    (buildInRange bmap x y t.range uncovered).map Prod.fst
      = uncovered.filter
          (fun bid => decide (dist_sq x y (bmap bid).x (bmap bid).y ≤ t.range ^ 2)) ∧
    List.Sorted popLE (sortByPop (buildInRange bmap x y t.range uncovered)) ∧
    (sortByPop (buildInRange bmap x y t.range uncovered)).Perm
      (buildInRange bmap x y t.range uncovered) ∧
    sel = (greedyPack t.capacity (sortByPop (buildInRange bmap x y t.range uncovered))).1 ∧
    totalPop bmap sel ≤ t.capacity ∧
    ∀ bid ∈ sel, bid ∈ uncovered ∧
      dist_sq x y (bmap bid).x (bmap bid).y ≤ t.range ^ 2 := by
  obtain ⟨tp, hcand, -⟩ := find_best_antenna_eq_some bmap x y uncovered pc t sel sc h
  obtain ⟨h1, h2, h3⟩ := candidate_for_type_some bmap x y uncovered t sel tp hcand
  exact ⟨buildInRange_map_fst bmap x y t.range uncovered,
    List.sorted_insertionSort popLE _, List.perm_insertionSort popLE _, h1, h2, h3⟩

/-- Concrete building used by the C8 witness. -/
def buildingW8 : Building := ⟨0, 0, 0, 10, 0, 0⟩

/-- Witness for C8 at a concrete position and one-building uncovered set. -/
theorem find_best_antenna_packing_witness :
    (buildInRange (mkBmap [buildingW8]) 0 0 AntennaType.Nano.range [0]).map Prod.fst
      = [0].filter (fun bid => decide (dist_sq 0 0 ((mkBmap [buildingW8]) bid).x
          ((mkBmap [buildingW8]) bid).y ≤ AntennaType.Nano.range ^ 2)) ∧
    List.Sorted popLE (sortByPop (buildInRange (mkBmap [buildingW8]) 0 0
      AntennaType.Nano.range [0])) ∧
    (sortByPop (buildInRange (mkBmap [buildingW8]) 0 0 AntennaType.Nano.range [0])).Perm
      (buildInRange (mkBmap [buildingW8]) 0 0 AntennaType.Nano.range [0]) ∧
    [0] = (greedyPack AntennaType.Nano.capacity
      (sortByPop (buildInRange (mkBmap [buildingW8]) 0 0 AntennaType.Nano.range [0]))).1 ∧
    totalPop (mkBmap [buildingW8]) [0] ≤ AntennaType.Nano.capacity ∧
    ∀ bid ∈ [0], bid ∈ [0] ∧
      dist_sq 0 0 ((mkBmap [buildingW8]) bid).x ((mkBmap [buildingW8]) bid).y
        ≤ AntennaType.Nano.range ^ 2 :=
  find_best_antenna_packing (mkBmap [buildingW8]) 0 0 [0] false .Nano [0] (1001/500)
    (by norm_num [find_best_antenna, fbaOrder, candidate_for_type, buildInRange, sortByPop,
      greedyPack, greedyPackGo, scoreOf, mkBmap, dist_sq, get_max_pop, buildingW8,
      AntennaType.range, AntennaType.capacity, AntennaType.cost_on,
      List.insertionSort, List.orderedInsert, List.filterMap, List.foldl])

/-! ## try_merge_antennas of advanced_solution.py -/

/-- The accepted merged antennas for an ordered pair of antennas, in the
scan order of the position and type loops of try_merge_antennas: the
position of antenna 1 then of antenna 2, types in the order Density,
MaxRange, Spot, Nano; a merge is accepted when the union's total demand
fits the type's capacity, every union building is within the type's
radius of the position, and the merged cost is strictly below the sum of
the two original activation costs. -/
def acceptedMerges (bmap : Nat → Building) (a1 a2 : Antenna) : List Antenna :=
  [(a1.x, a1.y), (a2.x, a2.y)].flatMap (fun pos =>
    fbaOrder.filterMap (fun atype =>
      if totalPop bmap (a1.buildings ++ a2.buildings) ≤ atype.capacity ∧
          (∀ bid ∈ a1.buildings ++ a2.buildings,
            dist_sq pos.1 pos.2 (bmap bid).x (bmap bid).y ≤ atype.range ^ 2) ∧
          atype.cost_on < a1.type.cost_on + a2.type.cost_on
      then some ⟨atype, pos.1, pos.2, a1.buildings ++ a2.buildings⟩ else none))

/-- First accepted merge for a pair (the inner loops commit at the first
position and type passing all checks). -/
def mergeCandidate (bmap : Nat → Building) (a1 a2 : Antenna) : Option Antenna :=
  (acceptedMerges bmap a1 a2).head?

/-- Index pairs (i, j) with i < j < n in the scan order of the two index
loops of try_merge_antennas. -/
def mergePairs (n : Nat) : List (Nat × Nat) :=
  (List.range n).flatMap (fun i =>
    (List.range n).filterMap (fun j => if i < j then some (i, j) else none))

/-- One committing pass of try_merge_antennas: the first pair in scan
order admitting an accepted merge replaces antenna i by the merged
antenna and removes antenna j. -/
def mergePass (bmap : Nat → Building) (antennas : List Antenna) : Option (List Antenna) :=
  (mergePairs antennas.length).findSome? (fun ij =>
    (mergeCandidate bmap (antennas.getD ij.1 default) (antennas.getD ij.2 default)).map
      (fun m => (antennas.set ij.1 m).eraseIdx ij.2))

/-- The outer improvement loop of try_merge_antennas, fuelled by the
antenna count (each committed merge removes exactly one antenna). -/
def mergeLoop (bmap : Nat → Building) : Nat → List Antenna → List Antenna
  | 0, ants => ants
  | fuel + 1, ants =>
    match mergePass bmap ants with
    | none => ants
    | some ants2 => mergeLoop bmap fuel ants2

/-- try_merge_antennas of advanced_solution.py. -/
def try_merge_antennas (buildings : List Building) (antennas : List Antenna) : List Antenna :=
  mergeLoop (mkBmap buildings) antennas.length antennas

theorem perm_getD_cons_eraseIdx {α : Type} (d : α) :
    ∀ (l : List α) (j : Nat), j < l.length → l.Perm (l.getD j d :: l.eraseIdx j) := by
  intro l
  induction l with
  | nil => intro j hj; cases hj
  | cons a t ih =>
    intro j hj
    cases j with
    | zero => simp
    | succ j =>
      have hj2 : j < t.length := Nat.lt_of_succ_lt_succ hj
      have step : (a :: t).Perm (a :: (t.getD j d :: t.eraseIdx j)) :=
        List.Perm.cons a (ih j hj2)
      refine step.trans ?_
      simpa using List.Perm.swap (t.getD j d) a (t.eraseIdx j)

theorem set_eraseIdx_perm {α : Type} (d : α) :
    ∀ (l : List α) (i j : Nat), i < j → j < l.length → ∀ x : α,
      ∃ rest, l.Perm (l.getD i d :: l.getD j d :: rest) ∧
        ((l.set i x).eraseIdx j).Perm (x :: rest) := by
  intro l
  induction l with
  | nil => intro i j hij hj; cases hj
  | cons a t ih =>
    intro i j hij hj x
    cases i with
    | zero =>
      cases j with
      | zero => cases hij
      | succ j =>
        have hj2 : j < t.length := Nat.lt_of_succ_lt_succ hj
        refine ⟨t.eraseIdx j, ?_, ?_⟩
        · simpa using List.Perm.cons a (perm_getD_cons_eraseIdx d t j hj2)
        · simp
    | succ i =>
      cases j with
      | zero => cases hij
      | succ j =>
        have hij2 : i < j := Nat.lt_of_succ_lt_succ hij
        have hj2 : j < t.length := Nat.lt_of_succ_lt_succ hj
        obtain ⟨rest, h1, h2⟩ := ih i j hij2 hj2 x
        refine ⟨a :: rest, ?_, ?_⟩
        · have s1 : (a :: t).Perm (a :: (t.getD i d :: t.getD j d :: rest)) :=
            List.Perm.cons a h1
          refine s1.trans ?_
          have s2 : (a :: t.getD i d :: (t.getD j d :: rest)).Perm
              (t.getD i d :: a :: (t.getD j d :: rest)) :=
            List.Perm.swap (t.getD i d) a (t.getD j d :: rest)
          refine s2.trans ?_
          apply List.Perm.cons (t.getD i d)
          simpa using List.Perm.swap (t.getD j d) a rest
        · have e1 : ((a :: t).set (i + 1) x).eraseIdx (j + 1)
              = a :: ((t.set i x).eraseIdx j) := by simp
          rw [e1]
          have s1 : (a :: (t.set i x).eraseIdx j).Perm (a :: (x :: rest)) :=
            List.Perm.cons a h2
          refine s1.trans ?_
          simpa using List.Perm.swap x a rest

theorem calculate_cost_perm {l1 l2 : List Antenna} (h : l1.Perm l2) :
    calculate_cost l1 = calculate_cost l2 := by
  unfold calculate_cost
  exact (h.map (fun a => a.type.cost_on)).sum_eq

theorem mem_mergePairs_bounds (n : Nat) (ij : Nat × Nat) (h : ij ∈ mergePairs n) :
    ij.1 < ij.2 ∧ ij.2 < n := by
  unfold mergePairs at h
  obtain ⟨i, hi, hmem⟩ := List.mem_flatMap.mp h
  obtain ⟨j, hj, heq⟩ := List.mem_filterMap.mp hmem
  by_cases hlt : i < j
  · rw [if_pos hlt] at heq
    cases heq
    exact ⟨hlt, List.mem_range.mp hj⟩
  · rw [if_neg hlt] at heq
    cases heq

theorem mem_acceptedMerges (bmap : Nat → Building) (a1 a2 m : Antenna)
    (h : m ∈ acceptedMerges bmap a1 a2) :
    ((m.x = a1.x ∧ m.y = a1.y) ∨ (m.x = a2.x ∧ m.y = a2.y)) ∧
    m.buildings = a1.buildings ++ a2.buildings ∧
    totalPop bmap m.buildings ≤ m.type.capacity ∧
    (∀ bid ∈ m.buildings, dist_sq m.x m.y (bmap bid).x (bmap bid).y ≤ m.type.range ^ 2) ∧
    m.type.cost_on < a1.type.cost_on + a2.type.cost_on := by
  unfold acceptedMerges at h
  obtain ⟨pos, hpos, hmem⟩ := List.mem_flatMap.mp h
  obtain ⟨atype, -, heq⟩ := List.mem_filterMap.mp hmem
  by_cases hc : totalPop bmap (a1.buildings ++ a2.buildings) ≤ atype.capacity ∧
      (∀ bid ∈ a1.buildings ++ a2.buildings,
        dist_sq pos.1 pos.2 (bmap bid).x (bmap bid).y ≤ atype.range ^ 2) ∧
      atype.cost_on < a1.type.cost_on + a2.type.cost_on
  · rw [if_pos hc] at heq
    cases heq
    obtain ⟨h1, h2, h3⟩ := hc
    have hpos2 : pos = (a1.x, a1.y) ∨ pos = (a2.x, a2.y) := by
      simpa using hpos
    refine ⟨?_, rfl, h1, h2, h3⟩
    rcases hpos2 with hp | hp <;> rw [hp]
    · exact Or.inl ⟨rfl, rfl⟩
    · exact Or.inr ⟨rfl, rfl⟩
  · rw [if_neg hc] at heq
    cases heq

/-- C5: every merge committed by a pass of try_merge_antennas strictly
decreases the total cost and preserves the multiset of assigned building
ids, and the merged antenna sits at one of the two original antennas'
positions, is assigned exactly the concatenation of their building lists,
has capacity at least the union's total demand, covers every union
building within its radius, and costs strictly less than the two original
antennas together. -/
theorem mergePass_sound (buildings : List Building) (antennas antennas2 : List Antenna)
    (h : mergePass (mkBmap buildings) antennas = some antennas2) :
    calculate_cost antennas2 < calculate_cost antennas ∧
    (antennas2.flatMap (fun a => a.buildings)).Perm
      (antennas.flatMap (fun a => a.buildings)) ∧
    ∃ i j, i < j ∧ j < antennas.length ∧
      ∃ m, mergeCandidate (mkBmap buildings) (antennas.getD i default)
          (antennas.getD j default) = some m ∧
        antennas2 = (antennas.set i m).eraseIdx j ∧
        ((m.x = (antennas.getD i default).x ∧ m.y = (antennas.getD i default).y) ∨
          (m.x = (antennas.getD j default).x ∧ m.y = (antennas.getD j default).y)) ∧
        m.buildings = (antennas.getD i default).buildings
          ++ (antennas.getD j default).buildings ∧
        totalPop (mkBmap buildings) m.buildings ≤ m.type.capacity ∧
        (∀ bid ∈ m.buildings, dist_sq m.x m.y ((mkBmap buildings) bid).x
          ((mkBmap buildings) bid).y ≤ m.type.range ^ 2) ∧
        m.type.cost_on < (antennas.getD i default).type.cost_on
          + (antennas.getD j default).type.cost_on := by
  obtain ⟨ij, hij_mem, hf⟩ := List.exists_of_findSome?_eq_some h
  obtain ⟨hij, hjn⟩ := mem_mergePairs_bounds antennas.length ij hij_mem
  obtain ⟨m, hm, hres⟩ := Option.map_eq_some'.mp hf
  have hmem : m ∈ acceptedMerges (mkBmap buildings) (antennas.getD ij.1 default)
      (antennas.getD ij.2 default) := List.mem_of_mem_head? hm
  obtain ⟨hpos, hbids, hcap, hrng, hcost⟩ :=
    mem_acceptedMerges (mkBmap buildings) _ _ m hmem
  obtain ⟨rest, hperm1, hperm2⟩ := set_eraseIdx_perm default antennas ij.1 ij.2 hij hjn m
  rw [hres] at hperm2
  have hc1 : calculate_cost antennas
      = (antennas.getD ij.1 default).type.cost_on
        + ((antennas.getD ij.2 default).type.cost_on + calculate_cost rest) := by
    have := calculate_cost_perm hperm1
    simpa [calculate_cost] using this
  have hc2 : calculate_cost antennas2 = m.type.cost_on + calculate_cost rest := by
    have := calculate_cost_perm hperm2
    simpa [calculate_cost] using this
  constructor
  · rw [hc1, hc2]; omega
  constructor
  · have hb1 : (antennas.flatMap (fun a => a.buildings)).Perm
        (((antennas.getD ij.1 default) :: (antennas.getD ij.2 default) :: rest).flatMap
          (fun a => a.buildings)) := hperm1.flatMap_right _
    have hb2 : (antennas2.flatMap (fun a => a.buildings)).Perm
        ((m :: rest).flatMap (fun a => a.buildings)) := hperm2.flatMap_right _
    refine hb2.trans (List.Perm.trans ?_ hb1.symm)
    simp only [List.flatMap_cons, hbids, List.append_assoc]
    exact List.Perm.refl _
  · exact ⟨ij.1, ij.2, hij, hjn, m, hm, hres.symm, hpos, hbids, hcap, hrng, hcost⟩

/-- Concrete two-building dataset used by the C5 witness. -/
def datasetW5 : List Building := [⟨0, 0, 0, 10, 0, 0⟩, ⟨1, 0, 0, 10, 0, 0⟩]

/-- Concrete two-antenna solution used by the C5 witness. -/
def solutionW5 : List Antenna := [⟨.Nano, 0, 0, [0]⟩, ⟨.Nano, 0, 0, [1]⟩]

/-- Witness for C5: a concrete committed merge of two Nano antennas. -/
theorem mergePass_sound_witness :
    calculate_cost [⟨.Nano, 0, 0, [0, 1]⟩] < calculate_cost solutionW5 ∧
    (([(⟨.Nano, 0, 0, [0, 1]⟩ : Antenna)].flatMap (fun a => a.buildings)).Perm
      (solutionW5.flatMap (fun a => a.buildings))) ∧
    ∃ i j, i < j ∧ j < solutionW5.length ∧
      ∃ m, mergeCandidate (mkBmap datasetW5) (solutionW5.getD i default)
          (solutionW5.getD j default) = some m ∧
        [(⟨.Nano, 0, 0, [0, 1]⟩ : Antenna)] = (solutionW5.set i m).eraseIdx j ∧
        ((m.x = (solutionW5.getD i default).x ∧ m.y = (solutionW5.getD i default).y) ∨
          (m.x = (solutionW5.getD j default).x ∧ m.y = (solutionW5.getD j default).y)) ∧
        m.buildings = (solutionW5.getD i default).buildings
          ++ (solutionW5.getD j default).buildings ∧
        totalPop (mkBmap datasetW5) m.buildings ≤ m.type.capacity ∧
        (∀ bid ∈ m.buildings, dist_sq m.x m.y ((mkBmap datasetW5) bid).x
          ((mkBmap datasetW5) bid).y ≤ m.type.range ^ 2) ∧
        m.type.cost_on < (solutionW5.getD i default).type.cost_on
          + (solutionW5.getD j default).type.cost_on :=
  mergePass_sound datasetW5 solutionW5 [⟨.Nano, 0, 0, [0, 1]⟩] (by decide)

/-! ## get_cheapest_valid_type and move_building of
suburbia_simulated_annealing.py -/

/-- get_cheapest_valid_type: the first type in TYPE_ORDER (which lists
the four types in ascending cost) whose capacity accommodates the
antenna's total demand and whose radius covers every assigned building;
none when no type qualifies. -/
def get_cheapest_valid_type (bmap : Nat → Building) (ant : Antenna) : Option AntennaType :=
  TYPE_ORDER.find? (fun atype =>
    decide (totalPop bmap ant.buildings ≤ atype.capacity) &&
    ant.buildings.all (fun bid =>
      decide (dist_sq ant.x ant.y (bmap bid).x (bmap bid).y ≤ atype.range ^ 2)))

theorem get_cheapest_valid_type_valid (bmap : Nat → Building) (ant : Antenna)
    (t : AntennaType) (h : get_cheapest_valid_type bmap ant = some t) :
    validType bmap ant.x ant.y ant.buildings t := by
  have hp := List.find?_some h
  rw [Bool.and_eq_true, decide_eq_true_eq, List.all_eq_true] at hp
  refine ⟨hp.1, fun bid hbid => ?_⟩
  have := hp.2 bid hbid
  rwa [decide_eq_true_eq] at this

/-- Indices of antennas holding at least two buildings (the multi_indices
list of move_building and split_antenna). -/
def multiIndices (antennas : List Antenna) : List Nat :=
  (List.range antennas.length).filter
    (fun i => decide (1 < (antennas.getD i default).buildings.length))

/-- Body of the target loop of move_building for one candidate target
index: skip the source, require the building within MaxRange distance of
the target (the code compares the square root against 400; squared, 400
squared), retype the extended target and the shrunken source with
get_cheapest_valid_type, and commit both updates. -/
def moveTryTarget (bmap : Nat → Building) (antennas : List Antenna)
    (src_idx bid tgt_idx : Nat) : Option (List Antenna) :=
  if tgt_idx = src_idx then none
  else if 400 ^ 2 < dist_sq (antennas.getD tgt_idx default).x
      (antennas.getD tgt_idx default).y (bmap bid).x (bmap bid).y then none
  else
    match get_cheapest_valid_type bmap
        { antennas.getD tgt_idx default with
          buildings := (antennas.getD tgt_idx default).buildings ++ [bid] } with
    | none => none
    | some new_type =>
      match get_cheapest_valid_type bmap
          { antennas.getD src_idx default with
            buildings := (antennas.getD src_idx default).buildings.erase bid } with
      | none => none
      | some new_src_type =>
        some ((antennas.set src_idx
          { antennas.getD src_idx default with
            buildings := (antennas.getD src_idx default).buildings.erase bid,
            type := new_src_type }).set tgt_idx
          { antennas.getD tgt_idx default with
            buildings := (antennas.getD tgt_idx default).buildings ++ [bid],
            type := new_type })

/-- The source antenna index picked by random.choice(multi_indices),
the draw given as an arbitrary index reduced modulo the candidate count. -/
def srcIdxOf (antennas : List Antenna) (srcChoice : Nat) : Nat :=
  (multiIndices antennas).getD (srcChoice % (multiIndices antennas).length) 0

/-- The moved building id picked by random.choice(src_ant buildings). -/
def movedBidOf (antennas : List Antenna) (srcChoice bidChoice : Nat) : Nat :=
  (antennas.getD (srcIdxOf antennas srcChoice) default).buildings.getD
    (bidChoice % (antennas.getD (srcIdxOf antennas srcChoice) default).buildings.length) 0

/-- move_building of suburbia_simulated_annealing.py; the random.choice
and random.shuffle draws are explicit: srcChoice and bidChoice select
among the source candidates and its buildings, tgtOrder is the shuffled
order in which target antenna indices are tried. -/
def move_building (bmap : Nat → Building) (antennas : List Antenna)
    (srcChoice bidChoice : Nat) (tgtOrder : List Nat) : Option (List Antenna) :=
  if antennas.length < 2 then none
  else if multiIndices antennas = [] then none
  else
    tgtOrder.findSome? (moveTryTarget bmap antennas (srcIdxOf antennas srcChoice)
      (movedBidOf antennas srcChoice bidChoice))

theorem getD_mod_mem {α : Type} (l : List α) (d : α) (k : Nat) (hl : l ≠ []) :
    l.getD (k % l.length) d ∈ l := by
  have hlen : 0 < l.length := List.length_pos.mpr hl
  have hk : k % l.length < l.length := Nat.mod_lt _ hlen
  rw [List.getD_eq_getElem l d hk]
  exact List.getElem_mem hk

theorem set_perm_cons_eraseIdx {α : Type} :
    ∀ (l : List α) (j : Nat), j < l.length → ∀ y : α,
      (l.set j y).Perm (y :: l.eraseIdx j) := by
  intro l
  induction l with
  | nil => intro j hj; cases hj
  | cons a t ih =>
    intro j hj y
    cases j with
    | zero => simp
    | succ j =>
      have hj2 : j < t.length := Nat.lt_of_succ_lt_succ hj
      have step : ((a :: t).set (j + 1) y).Perm (a :: y :: t.eraseIdx j) := by
        simpa using List.Perm.cons a (ih j hj2 y)
      refine step.trans ?_
      simpa using List.Perm.swap y a (t.eraseIdx j)

theorem set_set_perm_lt {α : Type} (d : α) :
    ∀ (l : List α) (i j : Nat), i < j → j < l.length → ∀ x y : α,
      ∃ rest, l.Perm (l.getD i d :: l.getD j d :: rest) ∧
        ((l.set i x).set j y).Perm (x :: y :: rest) := by
  intro l
  induction l with
  | nil => intro i j hij hj; cases hj
  | cons a t ih =>
    intro i j hij hj x y
    cases i with
    | zero =>
      cases j with
      | zero => cases hij
      | succ j =>
        have hj2 : j < t.length := Nat.lt_of_succ_lt_succ hj
        refine ⟨t.eraseIdx j, ?_, ?_⟩
        · simpa using List.Perm.cons a (perm_getD_cons_eraseIdx d t j hj2)
        · have e1 : ((a :: t).set 0 x).set (j + 1) y = x :: t.set j y := by simp
          rw [e1]
          exact List.Perm.cons x (set_perm_cons_eraseIdx t j hj2 y)
    | succ i =>
      cases j with
      | zero => cases hij
      | succ j =>
        have hij2 : i < j := Nat.lt_of_succ_lt_succ hij
        have hj2 : j < t.length := Nat.lt_of_succ_lt_succ hj
        obtain ⟨rest, h1, h2⟩ := ih i j hij2 hj2 x y
        refine ⟨a :: rest, ?_, ?_⟩
        · refine (List.Perm.cons a h1).trans ?_
          refine (List.Perm.swap (t.getD i d) a (t.getD j d :: rest)).trans ?_
          apply List.Perm.cons (t.getD i d)
          simpa using List.Perm.swap (t.getD j d) a rest
        · have e1 : ((a :: t).set (i + 1) x).set (j + 1) y
              = a :: ((t.set i x).set j y) := by simp
          rw [e1]
          refine (List.Perm.cons a h2).trans ?_
          refine (List.Perm.swap x a (y :: rest)).trans ?_
          apply List.Perm.cons x
          simpa using List.Perm.swap y a rest

theorem set_set_perm {α : Type} (d : α) (l : List α) (i j : Nat) (hij : i ≠ j)
    (hi : i < l.length) (hj : j < l.length) (x y : α) :
    ∃ rest, l.Perm (l.getD i d :: l.getD j d :: rest) ∧
      ((l.set i x).set j y).Perm (x :: y :: rest) := by
  rcases Nat.lt_or_ge i j with hlt | hge
  · exact set_set_perm_lt d l i j hlt hj x y
  · have hlt : j < i := Nat.lt_of_le_of_ne hge (fun hne => hij hne.symm)
    obtain ⟨rest, h1, h2⟩ := set_set_perm_lt d l j i hlt hi y x
    refine ⟨rest, ?_, ?_⟩
    · refine h1.trans ?_
      exact List.Perm.swap (l.getD i d) (l.getD j d) rest
    · rw [List.set_comm _ _ _ (fun hne => hij hne.symm)] at h2
      refine h2.trans ?_
      exact List.Perm.swap x y rest

/-- C10: on a solution whose building lists are non-empty, duplicate-free
and pairwise disjoint, a successful move_building preserves the multiset
of assigned building ids, keeps the lists pairwise disjoint,
duplicate-free and non-empty (the source is only chosen when it holds at
least two buildings), and retypes both affected antennas to a type valid
for their new assignment. -/
theorem move_building_preserves_partition
    (bmap : Nat → Building) (antennas : List Antenna) (srcChoice bidChoice : Nat)
    (tgtOrder : List Nat) (res : List Antenna)
    (hne : ∀ a ∈ antennas, a.buildings ≠ [])
    (hnd : ∀ a ∈ antennas, a.buildings.Nodup)
    (hdisj : antennas.Pairwise (fun a b => a.buildings.Disjoint b.buildings))
    (hshuffle : tgtOrder.Perm (List.range antennas.length))
    (h : move_building bmap antennas srcChoice bidChoice tgtOrder = some res) :
    (res.flatMap (fun a => a.buildings)).Perm (antennas.flatMap (fun a => a.buildings)) ∧
    res.Pairwise (fun a b => a.buildings.Disjoint b.buildings) ∧
    (∀ a ∈ res, a.buildings ≠ [] ∧ a.buildings.Nodup) ∧
    ∃ si ti bid ts tt, si ≠ ti ∧ si < antennas.length ∧ ti < antennas.length ∧
      1 < (antennas.getD si default).buildings.length ∧
      bid ∈ (antennas.getD si default).buildings ∧
      get_cheapest_valid_type bmap { antennas.getD si default with
        buildings := (antennas.getD si default).buildings.erase bid } = some ts ∧
      get_cheapest_valid_type bmap { antennas.getD ti default with
        buildings := (antennas.getD ti default).buildings ++ [bid] } = some tt ∧
      validType bmap (antennas.getD si default).x (antennas.getD si default).y
        ((antennas.getD si default).buildings.erase bid) ts ∧
      validType bmap (antennas.getD ti default).x (antennas.getD ti default).y
        ((antennas.getD ti default).buildings ++ [bid]) tt ∧
      res = (antennas.set si { antennas.getD si default with
          buildings := (antennas.getD si default).buildings.erase bid,
          type := ts }).set ti
        { antennas.getD ti default with
          buildings := (antennas.getD ti default).buildings ++ [bid], type := tt } := by
  unfold move_building at h
  by_cases h2 : antennas.length < 2
  · rw [if_pos h2] at h; cases h
  rw [if_neg h2] at h
  by_cases hm : multiIndices antennas = []
  · rw [if_pos hm] at h; cases h
  rw [if_neg hm] at h
  obtain ⟨ti, hti_mem, hres⟩ := List.exists_of_findSome?_eq_some h
  have hti_lt : ti < antennas.length :=
    List.mem_range.mp (hshuffle.mem_iff.mp hti_mem)
  set si := srcIdxOf antennas srcChoice with hsi_def
  set bid := movedBidOf antennas srcChoice bidChoice with hbid_def
  have hsi_mem : si ∈ multiIndices antennas := getD_mod_mem _ 0 _ hm
  have hsi_mem2 := hsi_mem
  rw [multiIndices, List.mem_filter] at hsi_mem2
  have hsi_lt : si < antennas.length := List.mem_range.mp hsi_mem2.1
  have hsi_multi : 1 < (antennas.getD si default).buildings.length :=
    of_decide_eq_true hsi_mem2.2
  have hsrc_ne : (antennas.getD si default).buildings ≠ [] := by
    apply List.ne_nil_of_length_pos
    omega
  have hbid_mem : bid ∈ (antennas.getD si default).buildings := by
    rw [hbid_def, movedBidOf, ← hsi_def]
    exact getD_mod_mem _ 0 _ hsrc_ne
  unfold moveTryTarget at hres
  by_cases hts : ti = si
  · rw [if_pos hts] at hres; cases hres
  rw [if_neg hts] at hres
  by_cases hfar : 400 ^ 2 < dist_sq (antennas.getD ti default).x
      (antennas.getD ti default).y (bmap bid).x (bmap bid).y
  · rw [if_pos hfar] at hres; cases hres
  rw [if_neg hfar] at hres
  cases htt_eq : get_cheapest_valid_type bmap
      { antennas.getD ti default with
        buildings := (antennas.getD ti default).buildings ++ [bid] } with
  | none => rw [htt_eq] at hres; cases hres
  | some tt =>
  rw [htt_eq] at hres
  cases hts_eq : get_cheapest_valid_type bmap
      { antennas.getD si default with
        buildings := (antennas.getD si default).buildings.erase bid } with
  | none => rw [hts_eq] at hres; cases hres
  | some ts =>
  rw [hts_eq] at hres
  have hres_eq : res = (antennas.set si { antennas.getD si default with
      buildings := (antennas.getD si default).buildings.erase bid, type := ts }).set ti
      { antennas.getD ti default with
        buildings := (antennas.getD ti default).buildings ++ [bid], type := tt } :=
    (Option.some.inj hres).symm
  set S := antennas.getD si default with hS_def
  set T := antennas.getD ti default with hT_def
  set newSrc : Antenna := { S with buildings := S.buildings.erase bid, type := ts }
    with hnewSrc_def
  set newTgt : Antenna := { T with buildings := T.buildings ++ [bid], type := tt }
    with hnewTgt_def
  have hnewSrc_b : newSrc.buildings = S.buildings.erase bid := rfl
  have hnewTgt_b : newTgt.buildings = T.buildings ++ [bid] := rfl
  obtain ⟨rest, hp1, hp2⟩ := set_set_perm default antennas si ti
    (fun he => hts he.symm) hsi_lt hti_lt newSrc newTgt
  rw [← hres_eq] at hp2
  have hsymm : ∀ {a b : Antenna}, a.buildings.Disjoint b.buildings →
      b.buildings.Disjoint a.buildings :=
    fun hab x hx1 hx2 => hab hx2 hx1
  have hPw : (S :: T :: rest).Pairwise
      (fun a b => a.buildings.Disjoint b.buildings) :=
    (hp1.pairwise_iff hsymm).mp hdisj
  obtain ⟨hS_rel, hPw2⟩ := List.pairwise_cons.mp hPw
  obtain ⟨hT_rel, hPrest⟩ := List.pairwise_cons.mp hPw2
  have hST_disj : S.buildings.Disjoint T.buildings :=
    hS_rel T (List.mem_cons_self T rest)
  have hmem_rest : ∀ r ∈ rest, r ∈ antennas := fun r hr =>
    hp1.mem_iff.mpr (List.mem_cons_of_mem S (List.mem_cons_of_mem T hr))
  have hS_mem : S ∈ antennas := hp1.mem_iff.mpr (List.mem_cons_self S _)
  have hT_mem : T ∈ antennas :=
    hp1.mem_iff.mpr (List.mem_cons_of_mem S (List.mem_cons_self T rest))
  have hbid_notin_T : bid ∉ T.buildings := fun hc => hST_disj hbid_mem hc
  have hS_nodup : S.buildings.Nodup := hnd S hS_mem
  have hT_nodup : T.buildings.Nodup := hnd T hT_mem
  have hnewSrc_sub : ∀ x ∈ newSrc.buildings, x ∈ S.buildings ∧ x ≠ bid := by
    intro x hx
    rw [hnewSrc_b] at hx
    have := (List.Nodup.mem_erase_iff hS_nodup).mp hx
    exact ⟨this.2, this.1⟩
  have hnewTgt_mem : ∀ x ∈ newTgt.buildings, x ∈ T.buildings ∨ x = bid := by
    intro x hx
    rw [hnewTgt_b] at hx
    rcases List.mem_append.mp hx with hx | hx
    · exact Or.inl hx
    · exact Or.inr (List.mem_singleton.mp hx)
  have hSrcTgt : newSrc.buildings.Disjoint newTgt.buildings := by
    intro x hx hx2
    obtain ⟨hxS, hxbid⟩ := hnewSrc_sub x hx
    rcases hnewTgt_mem x hx2 with hxT | rfl
    · exact hST_disj hxS hxT
    · exact hxbid rfl
  refine ⟨?_, ?_, ?_, ?_⟩
  · -- multiset of building ids is preserved
    have hb1 : (antennas.flatMap (fun a => a.buildings)).Perm
        ((S :: T :: rest).flatMap (fun a => a.buildings)) := hp1.flatMap_right _
    have hb2 : (res.flatMap (fun a => a.buildings)).Perm
        ((newSrc :: newTgt :: rest).flatMap (fun a => a.buildings)) := hp2.flatMap_right _
    refine hb2.trans (List.Perm.trans ?_ hb1.symm)
    show (newSrc.buildings ++ (newTgt.buildings
        ++ rest.flatMap (fun a => a.buildings))).Perm
      (S.buildings ++ (T.buildings ++ rest.flatMap (fun a => a.buildings)))
    have hkey : (newSrc.buildings ++ newTgt.buildings).Perm
        (S.buildings ++ T.buildings) := by
      rw [hnewSrc_b, hnewTgt_b, ← List.append_assoc]
      refine (List.perm_append_singleton bid _).trans ?_
      have hSb : S.buildings.Perm (bid :: S.buildings.erase bid) :=
        List.perm_cons_erase hbid_mem
      refine List.Perm.symm ?_
      refine (hSb.append_right T.buildings).trans ?_
      exact List.Perm.refl _
    have step1 : newSrc.buildings ++ (newTgt.buildings
        ++ rest.flatMap (fun a => a.buildings))
        = (newSrc.buildings ++ newTgt.buildings)
          ++ rest.flatMap (fun a => a.buildings) :=
      (List.append_assoc _ _ _).symm
    have step3 : (S.buildings ++ T.buildings) ++ rest.flatMap (fun a => a.buildings)
        = S.buildings ++ (T.buildings ++ rest.flatMap (fun a => a.buildings)) :=
      List.append_assoc _ _ _
    rw [step1, ← step3]
    exact hkey.append_right _
  · -- pairwise disjointness is preserved
    refine (hp2.pairwise_iff hsymm).mpr ?_
    refine List.pairwise_cons.mpr ⟨?_, List.pairwise_cons.mpr ⟨?_, hPrest⟩⟩
    · intro b hb
      rcases List.mem_cons.mp hb with rfl | hb2
      · exact hSrcTgt
      · intro x hx hx2
        have hxS := (hnewSrc_sub x hx).1
        exact hS_rel b (List.mem_cons_of_mem T hb2) hxS hx2
    · intro b hb x hx hx2
      rcases hnewTgt_mem x hx with hxT | rfl
      · exact hT_rel b hb hxT hx2
      · exact hS_rel b (List.mem_cons_of_mem T hb) hbid_mem hx2
  · -- lists stay non-empty and duplicate-free
    intro a ha
    have ha2 := hp2.mem_iff.mp ha
    rcases List.mem_cons.mp ha2 with rfl | ha3
    · constructor
      · apply List.ne_nil_of_length_pos
        rw [hnewSrc_b]
        have hlen : (S.buildings.erase bid).length = S.buildings.length - 1 :=
          List.length_erase_of_mem hbid_mem
        omega
      · rw [hnewSrc_b]
        exact List.Nodup.erase bid hS_nodup
    rcases List.mem_cons.mp ha3 with rfl | ha4
    · constructor
      · rw [hnewTgt_b]
        simp
      · rw [hnewTgt_b]
        simp only [List.nodup_append, List.nodup_cons, List.not_mem_nil,
          not_false_eq_true, List.nodup_nil, and_true, true_and]
        refine ⟨hT_nodup, ?_⟩
        intro x hxT
        simp only [List.mem_singleton]
        intro hxe
        exact hbid_notin_T (hxe ▸ hxT)
    · exact ⟨hne a (hmem_rest a ha4), hnd a (hmem_rest a ha4)⟩
  · -- the committed move and its retyping
    refine ⟨si, ti, bid, ts, tt, fun he => hts he.symm, hsi_lt, hti_lt,
      hsi_multi, hbid_mem, hts_eq, htt_eq, ?_, ?_, hres_eq⟩
    · exact get_cheapest_valid_type_valid bmap _ ts hts_eq
    · exact get_cheapest_valid_type_valid bmap _ tt htt_eq

/-- Concrete dataset used by the C10 witness. -/
def datasetW10 : List Building :=
  [⟨0, 0, 0, 10, 0, 0⟩, ⟨1, 5, 0, 10, 0, 0⟩, ⟨2, 10, 0, 10, 0, 0⟩]

/-- Concrete solution used by the C10 witness. -/
def solutionW10 : List Antenna := [⟨.Nano, 0, 0, [0, 1]⟩, ⟨.Nano, 10, 0, [2]⟩]

/-- Result of the concrete move of the C10 witness. -/
def resultW10 : List Antenna := [⟨.Nano, 0, 0, [1]⟩, ⟨.Nano, 10, 0, [2, 0]⟩]

/-- Witness for C10: a concrete successful move of building 0 from the
first antenna to the second. -/
theorem move_building_preserves_partition_witness :
    (resultW10.flatMap (fun a => a.buildings)).Perm
      (solutionW10.flatMap (fun a => a.buildings)) ∧
    resultW10.Pairwise (fun a b => a.buildings.Disjoint b.buildings) ∧
    (∀ a ∈ resultW10, a.buildings ≠ [] ∧ a.buildings.Nodup) ∧
    ∃ si ti bid ts tt, si ≠ ti ∧ si < solutionW10.length ∧ ti < solutionW10.length ∧
      1 < (solutionW10.getD si default).buildings.length ∧
      bid ∈ (solutionW10.getD si default).buildings ∧
      get_cheapest_valid_type (mkBmap datasetW10) { solutionW10.getD si default with
        buildings := (solutionW10.getD si default).buildings.erase bid } = some ts ∧
      get_cheapest_valid_type (mkBmap datasetW10) { solutionW10.getD ti default with
        buildings := (solutionW10.getD ti default).buildings ++ [bid] } = some tt ∧
      validType (mkBmap datasetW10) (solutionW10.getD si default).x
        (solutionW10.getD si default).y
        ((solutionW10.getD si default).buildings.erase bid) ts ∧
      validType (mkBmap datasetW10) (solutionW10.getD ti default).x
        (solutionW10.getD ti default).y
        ((solutionW10.getD ti default).buildings ++ [bid]) tt ∧
      resultW10 = (solutionW10.set si { solutionW10.getD si default with
          buildings := (solutionW10.getD si default).buildings.erase bid,
          type := ts }).set ti
        { solutionW10.getD ti default with
          buildings := (solutionW10.getD ti default).buildings ++ [bid], type := tt } :=
  move_building_preserves_partition (mkBmap datasetW10) solutionW10 0 0 [0, 1] resultW10
    (by decide) (by decide)
    (by simp [solutionW10, List.pairwise_cons, List.Disjoint])
    (by decide) (by decide)

/-! ## merge_antennas and split_antenna of suburbia_simulated_annealing.py -/

/-- The new antenna list committed by merge_antennas: all antennas other
than i and j in their original order, followed by the merged antenna. -/
def mergeNewList (antennas : List Antenna) (i j : Nat) (m : Antenna) : List Antenna :=
  ((List.range antennas.length).filter
    (fun k => decide (k ≠ i) && decide (k ≠ j))).map
      (fun k => antennas.getD k default) ++ [m]

/-- Body of merge_antennas for one index pair (i, j): skip pairs with
j ≤ i, require the two antennas within 800 of each other (the code
compares the float square root against 800; squared here), then try the
three candidate positions — antenna i's, antenna j's, and their
coordinate-wise floor midpoint — and the four types in TYPE_ORDER,
committing the first combination whose capacity and radius accommodate
the union of the two building lists.  No cost test is performed. -/
def mergeTryPair (bmap : Nat → Building) (antennas : List Antenna)
    (i j : Nat) : Option (List Antenna) :=
  if j ≤ i then none
  else if 800 ^ 2 < dist_sq (antennas.getD i default).x (antennas.getD i default).y
      (antennas.getD j default).x (antennas.getD j default).y then none
  else
    ([((antennas.getD i default).x, (antennas.getD i default).y),
      ((antennas.getD j default).x, (antennas.getD j default).y),
      (((antennas.getD i default).x + (antennas.getD j default).x).fdiv 2,
        ((antennas.getD i default).y + (antennas.getD j default).y).fdiv 2)]).findSome?
      (fun p => TYPE_ORDER.findSome? (fun atype =>
        if totalPop bmap ((antennas.getD i default).buildings
              ++ (antennas.getD j default).buildings) ≤ atype.capacity ∧
            (∀ bid ∈ (antennas.getD i default).buildings
              ++ (antennas.getD j default).buildings,
              dist_sq p.1 p.2 (bmap bid).x (bmap bid).y ≤ atype.range ^ 2)
        then some (mergeNewList antennas i j
          ⟨atype, p.1, p.2, (antennas.getD i default).buildings
            ++ (antennas.getD j default).buildings⟩)
        else none))

/-- merge_antennas of suburbia_simulated_annealing.py; inds is the
shuffled index list produced by random.shuffle (the code only scans the
first 20 entries for each of i and j). -/
def merge_antennas (bmap : Nat → Building) (antennas : List Antenna)
    (inds : List Nat) : Option (List Antenna) :=
  if antennas.length < 2 then none
  else
    (inds.take 20).findSome? (fun i =>
      (inds.take 20).findSome? (fun j => mergeTryPair bmap antennas i j))

/-- Floor average of the x coordinates of a list of buildings (the
Python integer division sum // len). -/
def centroidX (bmap : Nat → Building) (bids : List Nat) : Int :=
  ((bids.map (fun bid => (bmap bid).x)).sum).fdiv (bids.length : Int)

/-- Floor average of the y coordinates of a list of buildings. -/
def centroidY (bmap : Nat → Building) (bids : List Nat) : Int :=
  ((bids.map (fun bid => (bmap bid).y)).sum).fdiv (bids.length : Int)

/-- Split point of split_antenna: half the list length, at least 1. -/
def splitMid (n : Nat) : Nat := if n / 2 = 0 then 1 else n / 2

/-- The antenna index picked by random.choice(multi_indices) in
split_antenna. -/
def splitIdxOf (antennas : List Antenna) (idxChoice : Nat) : Nat :=
  (multiIndices antennas).getD (idxChoice % (multiIndices antennas).length) 0

/-- Core of split_antenna for a chosen index and an already shuffled
building list: split the list in half, place each half's new antenna at
the floor centroid of its buildings (initial type Density), retype both
with get_cheapest_valid_type, and return the remaining antennas followed
by the two new ones; no move when either retyping fails. -/
def splitCore (bmap : Nat → Building) (antennas : List Antenna) (idx : Nat)
    (bids : List Nat) : Option (List Antenna) :=
  match get_cheapest_valid_type bmap
      ⟨.Density, centroidX bmap (bids.take (splitMid bids.length)),
        centroidY bmap (bids.take (splitMid bids.length)),
        bids.take (splitMid bids.length)⟩,
    get_cheapest_valid_type bmap
      ⟨.Density, centroidX bmap (bids.drop (splitMid bids.length)),
        centroidY bmap (bids.drop (splitMid bids.length)),
        bids.drop (splitMid bids.length)⟩ with
  | some t1, some t2 =>
    some ((((List.range antennas.length).filter (fun k => decide (k ≠ idx))).map
      (fun k => antennas.getD k default))
      ++ [⟨t1, centroidX bmap (bids.take (splitMid bids.length)),
            centroidY bmap (bids.take (splitMid bids.length)),
            bids.take (splitMid bids.length)⟩,
          ⟨t2, centroidX bmap (bids.drop (splitMid bids.length)),
            centroidY bmap (bids.drop (splitMid bids.length)),
            bids.drop (splitMid bids.length)⟩])
  | _, _ => none

/-- split_antenna of suburbia_simulated_annealing.py; idxChoice selects
among the antennas with at least two buildings, shuffledBids is the
shuffled copy of the chosen antenna's building list. -/
def split_antenna (bmap : Nat → Building) (antennas : List Antenna)
    (idxChoice : Nat) (shuffledBids : List Nat) : Option (List Antenna) :=
  if multiIndices antennas = [] then none
  else splitCore bmap antennas (splitIdxOf antennas idxChoice) shuffledBids

/-- Concrete dataset for the C2 counterexample: two buildings 790 apart. -/
def datasetC2 : List Building := [⟨0, 0, 0, 10, 0, 0⟩, ⟨1, 790, 0, 10, 0, 0⟩]

/-- Concrete antennas for the C2 counterexample, each sitting exactly on
a building. -/
def antennasC2 : List Antenna := [⟨.Nano, 0, 0, [0]⟩, ⟨.Nano, 790, 0, [1]⟩]

/-- C2 counterexample: on an antenna list whose antennas all sit on
building coordinates, merge_antennas commits — for every possible shuffle
outcome — a merged MaxRange antenna at the floor midpoint (395, 0), which
coincides with no building's coordinates.  The off-building midpoint (and
the centroid positions of split_antenna) refute the claim that every
operator keeps antennas on building coordinates. -/
theorem merge_antennas_offbuilding_counterexample :
    (∀ a ∈ antennasC2, ∃ b ∈ datasetC2, a.x = b.x ∧ a.y = b.y) ∧
    ([0, 1] : List Nat).Perm (List.range antennasC2.length) ∧
    ([1, 0] : List Nat).Perm (List.range antennasC2.length) ∧
    merge_antennas (mkBmap datasetC2) antennasC2 [0, 1]
      = some [⟨.MaxRange, 395, 0, [0, 1]⟩] ∧
    merge_antennas (mkBmap datasetC2) antennasC2 [1, 0]
      = some [⟨.MaxRange, 395, 0, [0, 1]⟩] ∧
    ∀ b ∈ datasetC2, ¬((395 : Int) = b.x ∧ (0 : Int) = b.y) := by
  decide

theorem getD_mem_of_lt {α : Type} (l : List α) (d : α) (k : Nat) (hk : k < l.length) :
    l.getD k d ∈ l := by
  rw [List.getD_eq_getElem l d hk]
  exact List.getElem_mem hk

/-- C2 amended: every antenna in a list returned by merge_antennas is
either an input antenna (keeping its original position) or the merged
antenna placed at one of the two merged antennas' positions or their
coordinate-wise floor midpoint; every antenna in a list returned by
split_antenna is either an input antenna or placed at the coordinate-wise
floor centroid of its own assigned buildings' positions — positions that
need not coincide with any building's coordinates. -/
theorem merge_split_positions (bmap : Nat → Building) :
    (∀ (antennas : List Antenna) (inds : List Nat) (res : List Antenna),
      inds.Perm (List.range antennas.length) →
      merge_antennas bmap antennas inds = some res →
      ∀ a ∈ res, (∃ a0 ∈ antennas, a.x = a0.x ∧ a.y = a0.y) ∨
        (∃ a1 ∈ antennas, ∃ a2 ∈ antennas,
          a.x = (a1.x + a2.x).fdiv 2 ∧ a.y = (a1.y + a2.y).fdiv 2)) ∧
    (∀ (antennas : List Antenna) (idxChoice : Nat) (shuffledBids : List Nat)
        (res : List Antenna),
      split_antenna bmap antennas idxChoice shuffledBids = some res →
      ∀ a ∈ res, (∃ a0 ∈ antennas, a.x = a0.x ∧ a.y = a0.y) ∨
        (a.x = centroidX bmap a.buildings ∧ a.y = centroidY bmap a.buildings)) := by
  constructor
  · intro antennas inds res hperm h a ha
    unfold merge_antennas at h
    by_cases h2 : antennas.length < 2
    · rw [if_pos h2] at h; cases h
    rw [if_neg h2] at h
    obtain ⟨i, hi_mem, hinner⟩ := List.exists_of_findSome?_eq_some h
    obtain ⟨j, hj_mem, hpair⟩ := List.exists_of_findSome?_eq_some hinner
    have hi_lt : i < antennas.length :=
      List.mem_range.mp (hperm.mem_iff.mp (List.mem_of_mem_take hi_mem))
    have hj_lt : j < antennas.length :=
      List.mem_range.mp (hperm.mem_iff.mp (List.mem_of_mem_take hj_mem))
    unfold mergeTryPair at hpair
    by_cases hji : j ≤ i
    · rw [if_pos hji] at hpair; cases hpair
    rw [if_neg hji] at hpair
    by_cases hfar : 800 ^ 2 < dist_sq (antennas.getD i default).x
        (antennas.getD i default).y (antennas.getD j default).x
        (antennas.getD j default).y
    · rw [if_pos hfar] at hpair; cases hpair
    rw [if_neg hfar] at hpair
    obtain ⟨p, hp_mem, htype⟩ := List.exists_of_findSome?_eq_some hpair
    obtain ⟨atype, -, hcommit⟩ := List.exists_of_findSome?_eq_some htype
    by_cases hcond : totalPop bmap ((antennas.getD i default).buildings
          ++ (antennas.getD j default).buildings) ≤ atype.capacity ∧
        (∀ bid ∈ (antennas.getD i default).buildings
          ++ (antennas.getD j default).buildings,
          dist_sq p.1 p.2 (bmap bid).x (bmap bid).y ≤ atype.range ^ 2)
    swap
    · rw [if_neg hcond] at hcommit; cases hcommit
    rw [if_pos hcond] at hcommit
    have hres : res = mergeNewList antennas i j
        ⟨atype, p.1, p.2, (antennas.getD i default).buildings
          ++ (antennas.getD j default).buildings⟩ := (Option.some.inj hcommit).symm
    rw [hres, mergeNewList] at ha
    rcases List.mem_append.mp ha with hold | hnew
    · obtain ⟨k, hk_mem, hk_eq⟩ := List.mem_map.mp hold
      have hk_lt : k < antennas.length :=
        List.mem_range.mp (List.mem_of_mem_filter hk_mem)
      refine Or.inl ⟨a, ?_, rfl, rfl⟩
      rw [← hk_eq]
      exact getD_mem_of_lt antennas default k hk_lt
    · have ha_eq : a = ⟨atype, p.1, p.2, (antennas.getD i default).buildings
          ++ (antennas.getD j default).buildings⟩ := List.mem_singleton.mp hnew
      have hai : antennas.getD i default ∈ antennas :=
        getD_mem_of_lt antennas default i hi_lt
      have haj : antennas.getD j default ∈ antennas :=
        getD_mem_of_lt antennas default j hj_lt
      have hp3 : p = ((antennas.getD i default).x, (antennas.getD i default).y) ∨
          p = ((antennas.getD j default).x, (antennas.getD j default).y) ∨
          p = (((antennas.getD i default).x + (antennas.getD j default).x).fdiv 2,
            ((antennas.getD i default).y + (antennas.getD j default).y).fdiv 2) := by
        simpa using hp_mem
      rcases hp3 with hp | hp | hp
      · refine Or.inl ⟨antennas.getD i default, hai, ?_, ?_⟩ <;> rw [ha_eq, hp]
      · refine Or.inl ⟨antennas.getD j default, haj, ?_, ?_⟩ <;> rw [ha_eq, hp]
      · refine Or.inr ⟨antennas.getD i default, hai, antennas.getD j default, haj,
          ?_, ?_⟩ <;> rw [ha_eq, hp]
  · intro antennas idxChoice shuffledBids res h a ha
    unfold split_antenna at h
    by_cases hm : multiIndices antennas = []
    · rw [if_pos hm] at h; cases h
    rw [if_neg hm] at h
    unfold splitCore at h
    cases h1 : get_cheapest_valid_type bmap
        ⟨.Density, centroidX bmap (shuffledBids.take (splitMid shuffledBids.length)),
          centroidY bmap (shuffledBids.take (splitMid shuffledBids.length)),
          shuffledBids.take (splitMid shuffledBids.length)⟩ with
    | none => rw [h1] at h; cases h
    | some t1 =>
    cases h2 : get_cheapest_valid_type bmap
        ⟨.Density, centroidX bmap (shuffledBids.drop (splitMid shuffledBids.length)),
          centroidY bmap (shuffledBids.drop (splitMid shuffledBids.length)),
          shuffledBids.drop (splitMid shuffledBids.length)⟩ with
    | none => rw [h1, h2] at h; cases h
    | some t2 =>
    rw [h1, h2] at h
    have hres : res = (((List.range antennas.length).filter
        (fun k => decide (k ≠ splitIdxOf antennas idxChoice))).map
          (fun k => antennas.getD k default))
        ++ [⟨t1, centroidX bmap (shuffledBids.take (splitMid shuffledBids.length)),
              centroidY bmap (shuffledBids.take (splitMid shuffledBids.length)),
              shuffledBids.take (splitMid shuffledBids.length)⟩,
            ⟨t2, centroidX bmap (shuffledBids.drop (splitMid shuffledBids.length)),
              centroidY bmap (shuffledBids.drop (splitMid shuffledBids.length)),
              shuffledBids.drop (splitMid shuffledBids.length)⟩] :=
      (Option.some.inj h).symm
    rw [hres] at ha
    rcases List.mem_append.mp ha with hold | hnew
    · obtain ⟨k, hk_mem, hk_eq⟩ := List.mem_map.mp hold
      have hk_lt : k < antennas.length :=
        List.mem_range.mp (List.mem_of_mem_filter hk_mem)
      refine Or.inl ⟨a, ?_, rfl, rfl⟩
      rw [← hk_eq]
      exact getD_mem_of_lt antennas default k hk_lt
    · rcases List.mem_cons.mp hnew with rfl | hnew2
      · exact Or.inr ⟨rfl, rfl⟩
      · have := List.mem_singleton.mp hnew2
        rw [this]
        exact Or.inr ⟨rfl, rfl⟩

/-- Witness for the amended C2 on concrete merge and split instances. -/
theorem merge_split_positions_witness :
    (∀ a ∈ [(⟨.MaxRange, 395, 0, [0, 1]⟩ : Antenna)],
      (∃ a0 ∈ antennasC2, a.x = a0.x ∧ a.y = a0.y) ∨
      (∃ a1 ∈ antennasC2, ∃ a2 ∈ antennasC2,
        a.x = (a1.x + a2.x).fdiv 2 ∧ a.y = (a1.y + a2.y).fdiv 2)) ∧
    (∀ a ∈ [(⟨.Nano, 0, 0, [0]⟩ : Antenna), ⟨.Nano, 5, 0, [1]⟩],
      (∃ a0 ∈ [(⟨.Nano, 0, 0, [0, 1]⟩ : Antenna)], a.x = a0.x ∧ a.y = a0.y) ∨
      (a.x = centroidX (mkBmap datasetW10) a.buildings ∧
        a.y = centroidY (mkBmap datasetW10) a.buildings)) :=
  ⟨(merge_split_positions (mkBmap datasetC2)).1 antennasC2 [0, 1]
      [⟨.MaxRange, 395, 0, [0, 1]⟩] (by decide) (by decide),
    (merge_split_positions (mkBmap datasetW10)).2 [⟨.Nano, 0, 0, [0, 1]⟩] 0 [0, 1]
      [⟨.Nano, 0, 0, [0]⟩, ⟨.Nano, 5, 0, [1]⟩] (by decide)⟩

/-! ## SpatialGrid of advanced_solution.py -/

/-- Grid cell of a point: coordinate-wise floor division by the cell
size (Python's // on ints). -/
def cellOf (cell_size x y : Int) : Int × Int := (x.fdiv cell_size, y.fdiv cell_size)

/-- The bucket of building ids stored in one grid cell, in dataset order
(the defaultdict built by SpatialGrid init). -/
def gridBucket (buildings : List Building) (cell_size : Int) (c : Int × Int) : List Nat :=
  (buildings.filter (fun b => decide (cellOf cell_size b.x b.y = c))).map Building.id

/-- The cell offsets -cells .. cells scanned by get_in_range
(Python's range(-cells, cells + 1)). -/
def offsetRange (cells : Int) : List Int :=
  (List.range (2 * cells + 1).toNat).map (fun (k : Nat) => (k : Int) - cells)

/-- SpatialGrid.get_in_range of advanced_solution.py: scan the square of
cells covering the bounding square of the query circle (cells =
radius // cell_size + 1 in each direction), filtering each bucket by the
exclusion set and by exact squared distance. -/
def get_in_range (buildings : List Building) (cell_size x y radius : Int)
    (exclude : List Nat) : List Nat :=
  (offsetRange (radius.fdiv cell_size + 1)).flatMap (fun dx =>
    (offsetRange (radius.fdiv cell_size + 1)).flatMap (fun dy =>
      (gridBucket buildings cell_size
          (x.fdiv cell_size + dx, y.fdiv cell_size + dy)).filterMap (fun bid =>
        if bid ∈ exclude then none
        else if dist_sq x y ((mkBmap buildings) bid).x ((mkBmap buildings) bid).y
            ≤ radius * radius then some bid
        else none)))

theorem mem_offsetRange (cells d : Int) (hc : 0 ≤ cells) :
    d ∈ offsetRange cells ↔ -cells ≤ d ∧ d ≤ cells := by
  unfold offsetRange
  constructor
  · intro hmem
    obtain ⟨a, ha, hEq⟩ := List.mem_map.mp hmem
    rw [List.mem_range] at ha
    omega
  · rintro ⟨h1, h2⟩
    apply List.mem_map.mpr
    refine ⟨(d + cells).toNat, List.mem_range.mpr (by omega), by omega⟩

theorem foldl_bmap_skip (bid : Nat) :
    ∀ (l : List Building) (acc : Option Building), (∀ b2 ∈ l, b2.id ≠ bid) →
      l.foldl (fun acc b => if b.id = bid then some b else acc) acc = acc := by
  intro l
  induction l with
  | nil => intro acc _; rfl
  | cons c t ih =>
    intro acc hl
    have hc : c.id ≠ bid := hl c (List.mem_cons_self c t)
    rw [List.foldl_cons, if_neg hc]
    exact ih acc (fun b2 hb2 => hl b2 (List.mem_cons_of_mem c hb2))

theorem mkBmap_eq_of_nodup (buildings : List Building) (b : Building)
    (hnodup : (buildings.map Building.id).Nodup) (hb : b ∈ buildings) :
    mkBmap buildings b.id = b := by
  induction buildings with
  | nil => cases hb
  | cons c t ih =>
    rw [List.map_cons, List.nodup_cons] at hnodup
    rcases List.mem_cons.mp hb with rfl | hbt
    · unfold mkBmap
      rw [List.foldl_cons, if_pos rfl]
      rw [foldl_bmap_skip b.id t (some b) ?_]
      · rfl
      · intro b2 hb2 he
        exact hnodup.1 (he ▸ List.mem_map_of_mem Building.id hb2)
    · have hcb : c.id ≠ b.id := by
        intro he
        exact hnodup.1 (he ▸ List.mem_map_of_mem Building.id hbt)
      unfold mkBmap at ih ⊢
      rw [List.foldl_cons, if_neg hcb]
      exact ih hnodup.2 hbt

theorem fdiv_le_add_bound (a c r cs : Int) (hcs : 0 < cs) (h : a ≤ c + r) :
    a.fdiv cs ≤ c.fdiv cs + (r.fdiv cs + 1) := by
  have ha := Int.fdiv_add_fmod a cs
  have hc2 := Int.fdiv_add_fmod c cs
  have hr2 := Int.fdiv_add_fmod r cs
  have ham : 0 ≤ a.fmod cs := Int.fmod_nonneg' a hcs
  have hcm : 0 ≤ c.fmod cs := Int.fmod_nonneg' c hcs
  have hrm : 0 ≤ r.fmod cs := Int.fmod_nonneg' r hcs
  have hcm2 : c.fmod cs < cs := Int.fmod_lt_of_pos c hcs
  have hrm2 : r.fmod cs < cs := Int.fmod_lt_of_pos r hcs
  by_contra hlt
  push_neg at hlt
  have h2 : c.fdiv cs + r.fdiv cs + 2 ≤ a.fdiv cs := by omega
  have h3 : cs * (c.fdiv cs + r.fdiv cs + 2) ≤ cs * a.fdiv cs :=
    mul_le_mul_of_nonneg_left h2 (le_of_lt hcs)
  linarith

theorem fdiv_sub_bound (a c r cs : Int) (hcs : 0 < cs) (h : c - r ≤ a) :
    c.fdiv cs - (r.fdiv cs + 1) ≤ a.fdiv cs := by
  have ha := Int.fdiv_add_fmod a cs
  have hc2 := Int.fdiv_add_fmod c cs
  have hr2 := Int.fdiv_add_fmod r cs
  have ham : 0 ≤ a.fmod cs := Int.fmod_nonneg' a hcs
  have ham2 : a.fmod cs < cs := Int.fmod_lt_of_pos a hcs
  have hcm : 0 ≤ c.fmod cs := Int.fmod_nonneg' c hcs
  have hrm : 0 ≤ r.fmod cs := Int.fmod_nonneg' r hcs
  have hrm2 : r.fmod cs < cs := Int.fmod_lt_of_pos r hcs
  by_contra hlt
  push_neg at hlt
  have h2 : a.fdiv cs ≤ c.fdiv cs - r.fdiv cs - 2 := by omega
  have h3 : cs * a.fdiv cs ≤ cs * (c.fdiv cs - r.fdiv cs - 2) :=
    mul_le_mul_of_nonneg_left h2 (le_of_lt hcs)
  linarith

theorem sq_le_bound (u r : Int) (hr : 0 ≤ r) (h : u ^ 2 ≤ r ^ 2) : -r ≤ u ∧ u ≤ r := by
  constructor <;> nlinarith [sq_nonneg (u + r), sq_nonneg (u - r)]

/-- C3: for cell size at least 1 and radius at least 0, get_in_range
returns exactly the ids of the non-excluded buildings whose Euclidean
distance to the query point is at most the radius: the scanned cell
window covers the bounding square of the circle, so no in-radius building
is missed and no strictly farther building is included; an empty result
is an ordinary value. -/
theorem get_in_range_spec (buildings : List Building) (cell_size x y radius : Int)
    (exclude : List Nat)
    (hnodup : (buildings.map Building.id).Nodup)
    (hcs : 1 ≤ cell_size) (hr : 0 ≤ radius) :
    ∀ bid, bid ∈ get_in_range buildings cell_size x y radius exclude ↔
      (bid ∉ exclude ∧ ∃ b ∈ buildings, b.id = bid ∧
        dist_sq x y b.x b.y ≤ radius * radius) := by
  intro bid
  have hcs0 : (0 : Int) < cell_size := by omega
  constructor
  · intro h
    unfold get_in_range at h
    obtain ⟨dx, -, h⟩ := List.mem_flatMap.mp h
    obtain ⟨dy, -, h⟩ := List.mem_flatMap.mp h
    obtain ⟨bid0, hbucket, heq⟩ := List.mem_filterMap.mp h
    by_cases hex : bid0 ∈ exclude
    · rw [if_pos hex] at heq; cases heq
    rw [if_neg hex] at heq
    by_cases hdist : dist_sq x y ((mkBmap buildings) bid0).x
        ((mkBmap buildings) bid0).y ≤ radius * radius
    swap
    · rw [if_neg hdist] at heq; cases heq
    rw [if_pos hdist] at heq
    have hbid : bid0 = bid := Option.some.inj heq
    subst hbid
    unfold gridBucket at hbucket
    obtain ⟨b, hbf, hbid⟩ := List.mem_map.mp hbucket
    have hbmem : b ∈ buildings := List.mem_of_mem_filter hbf
    have hbm : mkBmap buildings bid0 = b := by
      rw [← hbid]
      exact mkBmap_eq_of_nodup buildings b hnodup hbmem
    rw [hbm] at hdist
    exact ⟨hex, b, hbmem, hbid, hdist⟩
  · rintro ⟨hex, b, hbmem, hbid, hdist⟩
    have hbm : mkBmap buildings bid = b := by
      rw [← hbid]
      exact mkBmap_eq_of_nodup buildings b hnodup hbmem
    have hsqx : (x - b.x) ^ 2 ≤ radius ^ 2 := by
      have h1 : (0 : Int) ≤ (y - b.y) ^ 2 := sq_nonneg _
      have h2 : radius ^ 2 = radius * radius := sq radius
      unfold dist_sq at hdist
      linarith
    have hsqy : (y - b.y) ^ 2 ≤ radius ^ 2 := by
      have h1 : (0 : Int) ≤ (x - b.x) ^ 2 := sq_nonneg _
      have h2 : radius ^ 2 = radius * radius := sq radius
      unfold dist_sq at hdist
      linarith
    obtain ⟨hx1, hx2⟩ := sq_le_bound (x - b.x) radius hr hsqx
    obtain ⟨hy1, hy2⟩ := sq_le_bound (y - b.y) radius hr hsqy
    have hbx_le : b.x.fdiv cell_size
        ≤ x.fdiv cell_size + (radius.fdiv cell_size + 1) :=
      fdiv_le_add_bound b.x x radius cell_size hcs0 (by omega)
    have hbx_ge : x.fdiv cell_size - (radius.fdiv cell_size + 1)
        ≤ b.x.fdiv cell_size :=
      fdiv_sub_bound b.x x radius cell_size hcs0 (by omega)
    have hby_le : b.y.fdiv cell_size
        ≤ y.fdiv cell_size + (radius.fdiv cell_size + 1) :=
      fdiv_le_add_bound b.y y radius cell_size hcs0 (by omega)
    have hby_ge : y.fdiv cell_size - (radius.fdiv cell_size + 1)
        ≤ b.y.fdiv cell_size :=
      fdiv_sub_bound b.y y radius cell_size hcs0 (by omega)
    have hcellpos : (0 : Int) ≤ radius.fdiv cell_size + 1 := by
      have := Int.fdiv_nonneg hr (le_of_lt hcs0)
      omega
    unfold get_in_range
    rw [List.mem_flatMap]
    refine ⟨b.x.fdiv cell_size - x.fdiv cell_size, ?_, ?_⟩
    · rw [mem_offsetRange _ _ hcellpos]
      omega
    rw [List.mem_flatMap]
    refine ⟨b.y.fdiv cell_size - y.fdiv cell_size, ?_, ?_⟩
    · rw [mem_offsetRange _ _ hcellpos]
      omega
    rw [List.mem_filterMap]
    refine ⟨bid, ?_, ?_⟩
    · unfold gridBucket
      have hc : (x.fdiv cell_size + (b.x.fdiv cell_size - x.fdiv cell_size),
          y.fdiv cell_size + (b.y.fdiv cell_size - y.fdiv cell_size))
          = cellOf cell_size b.x b.y := by
        unfold cellOf
        rw [Prod.mk.injEq]
        constructor <;> omega
      rw [hc]
      rw [← hbid]
      apply List.mem_map_of_mem Building.id
      rw [List.mem_filter]
      exact ⟨hbmem, by simp [cellOf]⟩
    · rw [if_neg hex, hbm, if_pos hdist]

/-- Witness for C3 on a concrete one-building grid and query. -/
theorem get_in_range_spec_witness :
    0 ∈ get_in_range [(⟨0, 30, 0, 10, 0, 0⟩ : Building)] 100 0 0 50 [] ↔
      ((0 : Nat) ∉ ([] : List Nat) ∧ ∃ b ∈ [(⟨0, 30, 0, 10, 0, 0⟩ : Building)],
        b.id = 0 ∧ dist_sq 0 0 b.x b.y ≤ 50 * 50) :=
  get_in_range_spec [⟨0, 30, 0, 10, 0, 0⟩] 100 0 0 50 []
    (by decide) (by decide) (by decide) 0

/-! ## solve_advanced of advanced_solution.py -/

/-- Fallback type scan order of solve_advanced's phase 2. -/
def fallbackOrder : List AntennaType := [.Nano, .Spot, .Density, .MaxRange]

/-- Phase 1 of solve_advanced: every still-uncovered building whose
demand exceeds 3500 immediately receives its own Density antenna (the
code comments that only Density can handle it) — with no check that the
demand actually fits Density's capacity of 5000. -/
def phase1 (buildings : List Building) : List Antenna × List Nat :=
  buildings.foldl
    (fun (acc : List Antenna × List Nat) b =>
      if b.id ∈ acc.2 ∧ 3500 < get_max_pop b then
        (acc.1 ++ [⟨.Density, b.x, b.y, [b.id]⟩], acc.2.erase b.id)
      else acc)
    ([], buildings.map Building.id)

/-- One iteration of solve_advanced's phase-2 loop: score
find_best_antenna at every uncovered building position (the bounded
random sampling branch for more than 1000 candidates is not taken at the
sizes considered here), keep the strictly best-scoring candidate, and
fall back to a singleton antenna of the first type whose capacity fits
the first uncovered building when no candidate was found; none models
the crash the Python code incurs when even the fallback fails. -/
def phase2_pick (bmap : Nat → Building) (uncovered : List Nat) : Option Antenna :=
  match (uncovered.foldl
      (fun (acc : Option Antenna × ℚ) bid =>
        match find_best_antenna bmap (bmap bid).x (bmap bid).y uncovered false with
        | some (t, sel, sc) =>
          if acc.2 < sc then (some ⟨t, (bmap bid).x, (bmap bid).y, sel⟩, sc) else acc
        | none => acc)
      (none, -1)).1 with
  | some a => some a
  | none =>
    match uncovered with
    | [] => none
    | bid :: _ =>
      (fallbackOrder.find? (fun t => decide (get_max_pop (bmap bid) ≤ t.capacity))).map
        (fun t => ⟨t, (bmap bid).x, (bmap bid).y, [bid]⟩)

/-- The phase-2 covering loop of solve_advanced, fuelled by the number of
uncovered buildings (each committed antenna covers at least one). -/
def phase2_loop (bmap : Nat → Building) :
    Nat → List Antenna → List Nat → Option (List Antenna)
  | _, ants, [] => some ants
  | 0, _, _ :: _ => none
  | fuel + 1, ants, uncovered =>
    match phase2_pick bmap uncovered with
    | none => none
    | some a =>
      phase2_loop bmap fuel (ants ++ [a])
        (uncovered.filter (fun bid => decide (bid ∉ a.buildings)))

/-- solve_advanced of advanced_solution.py: the phase-1 pre-pass for
high-demand buildings followed by the greedy phase-2 covering loop. -/
def solve_advanced (buildings : List Building) : Option (List Antenna) :=
  phase2_loop (mkBmap buildings) (phase1 buildings).2.length
    (phase1 buildings).1 (phase1 buildings).2

/-- C1 (code bug): on a dataset with a single building whose demand 6000
exceeds every antenna type's capacity (the maximum is Density's 5000),
solve_advanced silently returns a solution assigning that building to a
Density antenna whose capacity its demand exceeds — phase 1 assigns every
building with demand above 3500 to a Density antenna without checking the
5000 ceiling — instead of signalling the data-level infeasibility the
specification requires. -/
theorem solve_advanced_overload_bug :
    (∀ t : AntennaType, t.capacity < get_max_pop (⟨0, 0, 0, 6000, 0, 0⟩ : Building)) ∧
    solve_advanced [⟨0, 0, 0, 6000, 0, 0⟩] = some [⟨.Density, 0, 0, [0]⟩] ∧
    AntennaType.Density.capacity < totalPop (mkBmap [⟨0, 0, 0, 6000, 0, 0⟩]) [0] := by
  refine ⟨by decide, by decide, by decide⟩

/-! ## simulated_annealing of suburbia_simulated_annealing.py -/

/-- Loop state of simulated_annealing: working solution and its cost,
best snapshot and its cost, temperature, iteration counter and the
accepted / improved counters. -/
structure SAState where
  current : List Antenna
  current_cost : Nat
  best : List Antenna
  best_cost : Nat
  temp : ℚ
  iteration : Nat
  accepted : Nat
  improved : Nat
deriving DecidableEq

/-- Initial state of simulated_annealing for a start solution and an
initial temperature. -/
def saInit (antennas : List Antenna) (initial_temp : ℚ) : SAState :=
  ⟨antennas, calculate_cost antennas, antennas, calculate_cost antennas,
    initial_temp, 0, 0, 0⟩

/-- One iteration of the simulated_annealing while loop.  The stochastic
parts are explicit oracles: nf models random_neighbor as a function of
the iteration counter (standing for the pseudo-random state) and the
current solution, draw models the random.random() call of the iteration,
and expFn models the float math.exp routine.  An absent neighbor leaves
the working solution untouched; an improving neighbor is always accepted
(and snapshotted as best when it beats the best cost); a non-improving
neighbor is accepted exactly when the draw is below
expFn(-delta / temp); in every case the temperature is multiplied by the
cooling rate exactly once and the iteration counter advances by one. -/
def sa_step (nf : Nat → List Antenna → Option (List Antenna)) (draw : Nat → ℚ)
    (expFn : ℚ → ℚ) (cooling_rate : ℚ) (s : SAState) : SAState :=
  match nf s.iteration s.current with
  | none => { s with iteration := s.iteration + 1, temp := s.temp * cooling_rate }
  | some neighbor =>
    if calculate_cost neighbor < s.current_cost then
      if calculate_cost neighbor < s.best_cost then
        { s with
          current := neighbor,
          current_cost := calculate_cost neighbor,
          accepted := s.accepted + 1,
          best := neighbor,
          best_cost := calculate_cost neighbor,
          improved := s.improved + 1,
          iteration := s.iteration + 1,
          temp := s.temp * cooling_rate }
      else
        { s with
          current := neighbor,
          current_cost := calculate_cost neighbor,
          accepted := s.accepted + 1,
          iteration := s.iteration + 1,
          temp := s.temp * cooling_rate }
    else if draw s.iteration <
        expFn (-((calculate_cost neighbor : ℚ) - (s.current_cost : ℚ)) / s.temp) then
      { s with
        current := neighbor,
        current_cost := calculate_cost neighbor,
        accepted := s.accepted + 1,
        iteration := s.iteration + 1,
        temp := s.temp * cooling_rate }
    else
      { s with iteration := s.iteration + 1, temp := s.temp * cooling_rate }

/-- The while loop of simulated_annealing: run while the temperature
exceeds min_temp and the iteration budget is not exhausted; the fuel
bounds the number of executed steps (max_iterations always suffices,
since the iteration counter increases by one per step). -/
def sa_loop (nf : Nat → List Antenna → Option (List Antenna)) (draw : Nat → ℚ)
    (expFn : ℚ → ℚ) (cooling_rate min_temp : ℚ) (max_iterations : Nat) :
    Nat → SAState → SAState
  | 0, s => s
  | fuel + 1, s =>
    if min_temp < s.temp ∧ s.iteration < max_iterations then
      sa_loop nf draw expFn cooling_rate min_temp max_iterations fuel
        (sa_step nf draw expFn cooling_rate s)
    else s

/-- simulated_annealing of suburbia_simulated_annealing.py: run the loop
from the initial solution and return the best snapshot with its cost. -/
def simulated_annealing (nf : Nat → List Antenna → Option (List Antenna))
    (draw : Nat → ℚ) (expFn : ℚ → ℚ) (antennas : List Antenna)
    (initial_temp cooling_rate min_temp : ℚ) (max_iterations : Nat) :
    List Antenna × Nat :=
  ((sa_loop nf draw expFn cooling_rate min_temp max_iterations max_iterations
      (saInit antennas initial_temp)).best,
   (sa_loop nf draw expFn cooling_rate min_temp max_iterations max_iterations
      (saInit antennas initial_temp)).best_cost)

/-- The cost bookkeeping invariant of the annealing loop: the stored
costs match the stored solutions and the best cost never exceeds the
current cost. -/
def SAInv (s : SAState) : Prop :=
  s.current_cost = calculate_cost s.current ∧
  s.best_cost = calculate_cost s.best ∧
  s.best_cost ≤ s.current_cost

theorem sa_step_inv (nf : Nat → List Antenna → Option (List Antenna)) (draw : Nat → ℚ)
    (expFn : ℚ → ℚ) (cooling_rate : ℚ) (s : SAState) (h : SAInv s) :
    SAInv (sa_step nf draw expFn cooling_rate s) := by
  obtain ⟨h1, h2, h3⟩ := h
  unfold sa_step
  cases nf s.iteration s.current with
  | none => exact ⟨h1, h2, h3⟩
  | some neighbor =>
    dsimp only
    by_cases hc : calculate_cost neighbor < s.current_cost
    · rw [if_pos hc]
      by_cases hb : calculate_cost neighbor < s.best_cost
      · rw [if_pos hb]
        exact ⟨rfl, rfl, le_refl _⟩
      · rw [if_neg hb]
        exact ⟨rfl, h2, by dsimp only; omega⟩
    · rw [if_neg hc]
      by_cases hd : draw s.iteration <
          expFn (-((calculate_cost neighbor : ℚ) - (s.current_cost : ℚ)) / s.temp)
      · rw [if_pos hd]
        exact ⟨rfl, h2, by dsimp only; omega⟩
      · rw [if_neg hd]
        exact ⟨h1, h2, h3⟩

theorem sa_step_best_le (nf : Nat → List Antenna → Option (List Antenna))
    (draw : Nat → ℚ) (expFn : ℚ → ℚ) (cooling_rate : ℚ) (s : SAState) :
    (sa_step nf draw expFn cooling_rate s).best_cost ≤ s.best_cost := by
  unfold sa_step
  cases nf s.iteration s.current with
  | none => exact le_refl _
  | some neighbor =>
    dsimp only
    by_cases hc : calculate_cost neighbor < s.current_cost
    · rw [if_pos hc]
      by_cases hb : calculate_cost neighbor < s.best_cost
      · rw [if_pos hb]; exact le_of_lt hb
      · rw [if_neg hb]
    · rw [if_neg hc]
      by_cases hd : draw s.iteration <
          expFn (-((calculate_cost neighbor : ℚ) - (s.current_cost : ℚ)) / s.temp)
      · rw [if_pos hd]
      · rw [if_neg hd]

theorem sa_loop_inv (nf : Nat → List Antenna → Option (List Antenna)) (draw : Nat → ℚ)
    (expFn : ℚ → ℚ) (cooling_rate min_temp : ℚ) (max_iterations : Nat) :
    ∀ (fuel : Nat) (s : SAState), SAInv s →
      SAInv (sa_loop nf draw expFn cooling_rate min_temp max_iterations fuel s) := by
  intro fuel
  induction fuel with
  | zero => intro s h; exact h
  | succ fuel ih =>
    intro s h
    rw [sa_loop]
    by_cases hg : min_temp < s.temp ∧ s.iteration < max_iterations
    · rw [if_pos hg]
      exact ih _ (sa_step_inv nf draw expFn cooling_rate s h)
    · rw [if_neg hg]; exact h

theorem sa_loop_best_le (nf : Nat → List Antenna → Option (List Antenna))
    (draw : Nat → ℚ) (expFn : ℚ → ℚ) (cooling_rate min_temp : ℚ)
    (max_iterations : Nat) :
    ∀ (fuel : Nat) (s : SAState),
      (sa_loop nf draw expFn cooling_rate min_temp max_iterations fuel s).best_cost
        ≤ s.best_cost := by
  intro fuel
  induction fuel with
  | zero => intro s; exact le_refl _
  | succ fuel ih =>
    intro s
    rw [sa_loop]
    by_cases hg : min_temp < s.temp ∧ s.iteration < max_iterations
    · rw [if_pos hg]
      exact le_trans (ih _) (sa_step_best_le nf draw expFn cooling_rate s)
    · rw [if_neg hg]

theorem sa_loop_stop (nf : Nat → List Antenna → Option (List Antenna))
    (draw : Nat → ℚ) (expFn : ℚ → ℚ) (cooling_rate min_temp : ℚ)
    (max_iterations : Nat) (s : SAState)
    (h : ¬(min_temp < s.temp ∧ s.iteration < max_iterations)) :
    ∀ fuel, sa_loop nf draw expFn cooling_rate min_temp max_iterations fuel s = s := by
  intro fuel
  cases fuel with
  | zero => rfl
  | succ fuel => rw [sa_loop, if_neg h]

theorem sa_loop_add (nf : Nat → List Antenna → Option (List Antenna))
    (draw : Nat → ℚ) (expFn : ℚ → ℚ) (cooling_rate min_temp : ℚ)
    (max_iterations : Nat) :
    ∀ (m n : Nat) (s : SAState),
      sa_loop nf draw expFn cooling_rate min_temp max_iterations (m + n) s
        = sa_loop nf draw expFn cooling_rate min_temp max_iterations n
            (sa_loop nf draw expFn cooling_rate min_temp max_iterations m s) := by
  intro m
  induction m with
  | zero => intro n s; rw [Nat.zero_add]; rfl
  | succ m ih =>
    intro n s
    rw [Nat.succ_add, sa_loop, sa_loop]
    by_cases hg : min_temp < s.temp ∧ s.iteration < max_iterations
    · rw [if_pos hg, if_pos hg, ih]
    · rw [if_neg hg, if_neg hg,
        sa_loop_stop nf draw expFn cooling_rate min_temp max_iterations s hg n]

theorem sa_loop_terminal (nf : Nat → List Antenna → Option (List Antenna))
    (draw : Nat → ℚ) (expFn : ℚ → ℚ) (cooling_rate min_temp : ℚ)
    (max_iterations : Nat) :
    ∀ (fuel : Nat) (s : SAState), max_iterations ≤ s.iteration + fuel →
      ¬(min_temp
          < (sa_loop nf draw expFn cooling_rate min_temp max_iterations fuel s).temp ∧
        (sa_loop nf draw expFn cooling_rate min_temp max_iterations fuel s).iteration
          < max_iterations) := by
  intro fuel
  induction fuel with
  | zero =>
    intro s h
    rintro ⟨-, h2⟩
    rw [sa_loop] at h2
    omega
  | succ fuel ih =>
    intro s h
    rw [sa_loop]
    by_cases hg : min_temp < s.temp ∧ s.iteration < max_iterations
    · rw [if_pos hg]
      apply ih
      have : (sa_step nf draw expFn cooling_rate s).iteration = s.iteration + 1 := by
        unfold sa_step
        cases nf s.iteration s.current with
        | none => rfl
        | some neighbor =>
          dsimp only
          by_cases hc : calculate_cost neighbor < s.current_cost
          · rw [if_pos hc]
            by_cases hb : calculate_cost neighbor < s.best_cost
            · rw [if_pos hb]
            · rw [if_neg hb]
          · rw [if_neg hc]
            by_cases hd : draw s.iteration <
                expFn (-((calculate_cost neighbor : ℚ) - (s.current_cost : ℚ)) / s.temp)
            · rw [if_pos hd]
            · rw [if_neg hd]
      omega
    · rw [if_neg hg]
      exact hg

/-- C6: the annealing driver returns the best snapshot, not the final
working solution: the returned cost is the cost of the returned solution,
it never exceeds the initial solution's cost nor the working solution's
cost at any iteration, and the best-known cost is non-increasing over
iterations — so accepting a cost-increasing exploratory move never loses
the best-known result. -/
theorem simulated_annealing_best_snapshot
    (nf : Nat → List Antenna → Option (List Antenna)) (draw : Nat → ℚ) (expFn : ℚ → ℚ)
    (antennas : List Antenna) (initial_temp cooling_rate min_temp : ℚ)
    (max_iterations : Nat) :
    (simulated_annealing nf draw expFn antennas initial_temp cooling_rate min_temp
        max_iterations).2
      = calculate_cost (simulated_annealing nf draw expFn antennas initial_temp
          cooling_rate min_temp max_iterations).1 ∧
    (simulated_annealing nf draw expFn antennas initial_temp cooling_rate min_temp
        max_iterations).2 ≤ calculate_cost antennas ∧
    (∀ k, (simulated_annealing nf draw expFn antennas initial_temp cooling_rate min_temp
        max_iterations).2
      ≤ (sa_loop nf draw expFn cooling_rate min_temp max_iterations k
          (saInit antennas initial_temp)).current_cost) ∧
    (∀ j k, j ≤ k →
      (sa_loop nf draw expFn cooling_rate min_temp max_iterations k
          (saInit antennas initial_temp)).best_cost
        ≤ (sa_loop nf draw expFn cooling_rate min_temp max_iterations j
            (saInit antennas initial_temp)).best_cost) ∧
    (simulated_annealing nf draw expFn antennas initial_temp cooling_rate min_temp
        max_iterations).1
      = (sa_loop nf draw expFn cooling_rate min_temp max_iterations max_iterations
          (saInit antennas initial_temp)).best := by
  have hinv0 : SAInv (saInit antennas initial_temp) := ⟨rfl, rfl, le_refl _⟩
  have hinvk : ∀ k, SAInv (sa_loop nf draw expFn cooling_rate min_temp max_iterations k
      (saInit antennas initial_temp)) :=
    fun k => sa_loop_inv nf draw expFn cooling_rate min_temp max_iterations k _ hinv0
  have hmono : ∀ j k, j ≤ k →
      (sa_loop nf draw expFn cooling_rate min_temp max_iterations k
        (saInit antennas initial_temp)).best_cost
      ≤ (sa_loop nf draw expFn cooling_rate min_temp max_iterations j
          (saInit antennas initial_temp)).best_cost := by
    intro j k hjk
    have hsplit : k = j + (k - j) := by omega
    rw [hsplit, sa_loop_add]
    exact sa_loop_best_le nf draw expFn cooling_rate min_temp max_iterations (k - j) _
  refine ⟨(hinvk max_iterations).2.1, hmono 0 max_iterations (Nat.zero_le _), ?_,
    hmono, rfl⟩
  intro k
  rcases Nat.le_total k max_iterations with hk | hk
  · exact le_trans (hmono k max_iterations hk) (hinvk k).2.2
  · have hterm : ¬(min_temp
        < (sa_loop nf draw expFn cooling_rate min_temp max_iterations max_iterations
            (saInit antennas initial_temp)).temp ∧
        (sa_loop nf draw expFn cooling_rate min_temp max_iterations max_iterations
          (saInit antennas initial_temp)).iteration < max_iterations) :=
      sa_loop_terminal nf draw expFn cooling_rate min_temp max_iterations
        max_iterations _ (Nat.le_add_left _ _)
    have heq : sa_loop nf draw expFn cooling_rate min_temp max_iterations k
        (saInit antennas initial_temp)
        = sa_loop nf draw expFn cooling_rate min_temp max_iterations max_iterations
            (saInit antennas initial_temp) := by
      have hsplit : k = max_iterations + (k - max_iterations) := by omega
      rw [hsplit, sa_loop_add, sa_loop_stop nf draw expFn cooling_rate min_temp
        max_iterations _ hterm]
    rw [heq]
    exact (hinvk max_iterations).2.2

/-- Witness for C6 at concrete oracles and parameters. -/
theorem simulated_annealing_best_snapshot_witness :
    (simulated_annealing (fun _ _ => none) (fun _ => 0) (fun _ => 0) [] 10 1 1 2).2
      = calculate_cost
          (simulated_annealing (fun _ _ => none) (fun _ => 0) (fun _ => 0) [] 10 1 1 2).1 ∧
    (simulated_annealing (fun _ _ => none) (fun _ => 0) (fun _ => 0) [] 10 1 1 2).2
      ≤ calculate_cost [] ∧
    (simulated_annealing (fun _ _ => none) (fun _ => 0) (fun _ => 0) [] 10 1 1 2).2
      ≤ (sa_loop (fun _ _ => none) (fun _ => 0) (fun _ => 0) 1 1 2 1
          (saInit [] 10)).current_cost ∧
    (sa_loop (fun _ _ => none) (fun _ => 0) (fun _ => 0) 1 1 2 2
        (saInit [] 10)).best_cost
      ≤ (sa_loop (fun _ _ => none) (fun _ => 0) (fun _ => 0) 1 1 2 1
          (saInit [] 10)).best_cost ∧
    (simulated_annealing (fun _ _ => none) (fun _ => 0) (fun _ => 0) [] 10 1 1 2).1
      = (sa_loop (fun _ _ => none) (fun _ => 0) (fun _ => 0) 1 1 2 2
          (saInit [] 10)).best := by
  obtain ⟨h1, h2, h3, h4, h5⟩ :=
    simulated_annealing_best_snapshot (fun _ _ => none) (fun _ => 0) (fun _ => 0)
      [] 10 1 1 2
  exact ⟨h1, h2, h3 1, h4 1 2 (by omega), h5⟩

/-- C7: the Metropolis transition structure of the annealing loop.  An
iteration without a candidate changes only the iteration counter and the
temperature; an improving candidate is accepted unconditionally; a
non-improving candidate is accepted exactly when the uniform draw is
below the modelled exp(-delta / T); the temperature is multiplied by the
cooling rate exactly once per iteration in all cases; and the loop stops
exactly when the temperature falls to min_temp or the iteration budget
max_iterations is reached. -/
theorem sa_step_metropolis (nf : Nat → List Antenna → Option (List Antenna))
    (draw : Nat → ℚ) (expFn : ℚ → ℚ) (cooling_rate min_temp : ℚ)
    (max_iterations : Nat) :
    (∀ s : SAState, nf s.iteration s.current = none →
      sa_step nf draw expFn cooling_rate s
        = { s with iteration := s.iteration + 1, temp := s.temp * cooling_rate }) ∧
    (∀ (s : SAState) (neighbor : List Antenna), nf s.iteration s.current = some neighbor →
      calculate_cost neighbor < s.current_cost →
      (sa_step nf draw expFn cooling_rate s).current = neighbor ∧
      (sa_step nf draw expFn cooling_rate s).current_cost = calculate_cost neighbor) ∧
    (∀ (s : SAState) (neighbor : List Antenna), nf s.iteration s.current = some neighbor →
      s.current_cost ≤ calculate_cost neighbor →
      (sa_step nf draw expFn cooling_rate s).current
        = if draw s.iteration < expFn (-((calculate_cost neighbor : ℚ)
            - (s.current_cost : ℚ)) / s.temp) then neighbor else s.current) ∧
    (∀ s : SAState, (sa_step nf draw expFn cooling_rate s).temp
        = s.temp * cooling_rate ∧
      (sa_step nf draw expFn cooling_rate s).iteration = s.iteration + 1) ∧
    (∀ (s : SAState) (fuel : Nat), ¬(min_temp < s.temp ∧ s.iteration < max_iterations) →
      sa_loop nf draw expFn cooling_rate min_temp max_iterations fuel s = s) ∧
    (∀ (s : SAState) (fuel : Nat), max_iterations ≤ s.iteration + fuel →
      ¬(min_temp
          < (sa_loop nf draw expFn cooling_rate min_temp max_iterations fuel s).temp ∧
        (sa_loop nf draw expFn cooling_rate min_temp max_iterations fuel s).iteration
          < max_iterations)) := by
  refine ⟨?_, ?_, ?_, ?_, ?_, ?_⟩
  · intro s h
    unfold sa_step
    rw [h]
  · intro s neighbor h hlt
    unfold sa_step
    rw [h]
    dsimp only
    rw [if_pos hlt]
    by_cases hb : calculate_cost neighbor < s.best_cost
    · rw [if_pos hb]; exact ⟨rfl, rfl⟩
    · rw [if_neg hb]; exact ⟨rfl, rfl⟩
  · intro s neighbor h hge
    unfold sa_step
    rw [h]
    dsimp only
    have hnlt : ¬(calculate_cost neighbor < s.current_cost) := by omega
    rw [if_neg hnlt]
    split_ifs <;> rfl
  · intro s
    unfold sa_step
    cases nf s.iteration s.current with
    | none => exact ⟨rfl, rfl⟩
    | some neighbor =>
      dsimp only
      split_ifs <;> exact ⟨rfl, rfl⟩
  · exact fun s fuel h =>
      sa_loop_stop nf draw expFn cooling_rate min_temp max_iterations s h fuel
  · exact fun s fuel h =>
      sa_loop_terminal nf draw expFn cooling_rate min_temp max_iterations fuel s h

/-- Concrete warm state for the C7 witness. -/
def saW7 : SAState := ⟨[⟨.Nano, 0, 0, [0]⟩], 5000, [⟨.Nano, 0, 0, [0]⟩], 5000, 10, 0, 0, 0⟩

/-- Concrete cooled-down state for the C7 witness. -/
def saW7cold : SAState := ⟨[], 0, [], 0, 0, 0, 0, 0⟩

/-- Witness for C7 at concrete oracles, states and parameters. -/
theorem sa_step_metropolis_witness :
    (sa_step (fun _ _ => none) (fun _ => (0 : ℚ)) (fun _ => (0 : ℚ)) 1 saW7
      = { saW7 with iteration := saW7.iteration + 1, temp := saW7.temp * 1 }) ∧
    ((sa_step (fun _ _ => some []) (fun _ => (0 : ℚ)) (fun _ => (0 : ℚ)) 1 saW7).current
        = ([] : List Antenna) ∧
      (sa_step (fun _ _ => some []) (fun _ => (0 : ℚ)) (fun _ => (0 : ℚ))
        1 saW7).current_cost = calculate_cost []) ∧
    ((sa_step (fun _ _ => some [⟨.MaxRange, 0, 0, []⟩]) (fun _ => (0 : ℚ))
        (fun _ => (0 : ℚ)) 1 saW7).current
      = if (0 : ℚ) < 0 then [(⟨.MaxRange, 0, 0, []⟩ : Antenna)] else saW7.current) ∧
    ((sa_step (fun _ _ => none) (fun _ => (0 : ℚ)) (fun _ => (0 : ℚ)) 1 saW7).temp
        = saW7.temp * 1 ∧
      (sa_step (fun _ _ => none) (fun _ => (0 : ℚ)) (fun _ => (0 : ℚ))
        1 saW7).iteration = saW7.iteration + 1) ∧
    (sa_loop (fun _ _ => none) (fun _ => (0 : ℚ)) (fun _ => (0 : ℚ)) 1 1 2 3 saW7cold
      = saW7cold) ∧
    ¬((1 : ℚ) < (sa_loop (fun _ _ => none) (fun _ => (0 : ℚ)) (fun _ => (0 : ℚ)) 1 1 2 2
        (saInit [] 10)).temp ∧
      (sa_loop (fun _ _ => none) (fun _ => (0 : ℚ)) (fun _ => (0 : ℚ)) 1 1 2 2
        (saInit [] 10)).iteration < 2) :=
  ⟨(sa_step_metropolis (fun _ _ => none) (fun _ => 0) (fun _ => 0) 1 1 2).1 saW7 rfl,
    (sa_step_metropolis (fun _ _ => some []) (fun _ => 0) (fun _ => 0) 1 1 2).2.1
      saW7 [] rfl (by decide),
    (sa_step_metropolis (fun _ _ => some [⟨.MaxRange, 0, 0, []⟩]) (fun _ => 0)
      (fun _ => 0) 1 1 2).2.2.1 saW7 [⟨.MaxRange, 0, 0, []⟩] rfl (by decide),
    (sa_step_metropolis (fun _ _ => none) (fun _ => 0) (fun _ => 0) 1 1 2).2.2.2.1 saW7,
    (sa_step_metropolis (fun _ _ => none) (fun _ => 0) (fun _ => 0) 1 1 2).2.2.2.2.1
      saW7cold 3 (by norm_num [saW7cold]),
    (sa_step_metropolis (fun _ _ => none) (fun _ => 0) (fun _ => 0) 1 1 2).2.2.2.2.2
      (saInit [] 10) 2 (Nat.le_add_left 2 _)⟩

theorem sa_step_congr (nf1 nf2 : Nat → List Antenna → Option (List Antenna))
    (d1 d2 : Nat → ℚ) (e1 e2 : ℚ → ℚ) (cooling_rate : ℚ)
    (hn : ∀ i c, nf1 i c = nf2 i c) (hd : ∀ i, d1 i = d2 i) (he : ∀ q, e1 q = e2 q)
    (s : SAState) :
    sa_step nf1 d1 e1 cooling_rate s = sa_step nf2 d2 e2 cooling_rate s := by
  unfold sa_step
  rw [hn s.iteration s.current]
  cases nf2 s.iteration s.current with
  | none => rfl
  | some neighbor =>
    dsimp only
    rw [hd s.iteration, he]

theorem sa_loop_congr (nf1 nf2 : Nat → List Antenna → Option (List Antenna))
    (d1 d2 : Nat → ℚ) (e1 e2 : ℚ → ℚ) (cooling_rate min_temp : ℚ)
    (max_iterations : Nat)
    (hn : ∀ i c, nf1 i c = nf2 i c) (hd : ∀ i, d1 i = d2 i) (he : ∀ q, e1 q = e2 q) :
    ∀ (fuel : Nat) (s : SAState),
      sa_loop nf1 d1 e1 cooling_rate min_temp max_iterations fuel s
        = sa_loop nf2 d2 e2 cooling_rate min_temp max_iterations fuel s := by
  intro fuel
  induction fuel with
  | zero => intro s; rfl
  | succ fuel ih =>
    intro s
    rw [sa_loop, sa_loop]
    by_cases hg : min_temp < s.temp ∧ s.iteration < max_iterations
    · rw [if_pos hg, if_pos hg, sa_step_congr nf1 nf2 d1 d2 e1 e2 cooling_rate hn hd he]
      exact ih _
    · rw [if_neg hg, if_neg hg]

/-- C9: determinism of the annealing driver with respect to its
pseudo-random source: two runs whose neighbor-generation, uniform-draw
and exp oracles agree pointwise — as they do when the generator is
seeded identically, e.g. random.seed(42) — return the identical best
solution and best cost for the same initial solution and parameters. -/
theorem simulated_annealing_deterministic
    (nf1 nf2 : Nat → List Antenna → Option (List Antenna)) (d1 d2 : Nat → ℚ)
    (e1 e2 : ℚ → ℚ) (antennas : List Antenna)
    (initial_temp cooling_rate min_temp : ℚ) (max_iterations : Nat)
    (hn : ∀ i c, nf1 i c = nf2 i c) (hd : ∀ i, d1 i = d2 i) (he : ∀ q, e1 q = e2 q) :
    simulated_annealing nf1 d1 e1 antennas initial_temp cooling_rate min_temp
        max_iterations
      = simulated_annealing nf2 d2 e2 antennas initial_temp cooling_rate min_temp
          max_iterations := by
  unfold simulated_annealing
  rw [sa_loop_congr nf1 nf2 d1 d2 e1 e2 cooling_rate min_temp max_iterations hn hd he]

/-- Witness for C9 at concrete oracles and parameters. -/
theorem simulated_annealing_deterministic_witness :
    simulated_annealing (fun _ _ => none) (fun _ => (0 : ℚ)) (fun _ => (0 : ℚ))
        [] 10 1 1 2
      = simulated_annealing (fun _ _ => none) (fun _ => (0 : ℚ)) (fun _ => (0 : ℚ))
          [] 10 1 1 2 :=
  simulated_annealing_deterministic (fun _ _ => none) (fun _ _ => none)
    (fun _ => 0) (fun _ => 0) (fun _ => 0) (fun _ => 0) [] 10 1 1 2
    (fun _ _ => rfl) (fun _ => rfl) (fun _ => rfl)
